import Mathlib

/-!
# Orcus: the RGB layer driver of `source/display.c`

A shallow embedding of the register-level code of `display.c`.  The GP2X
control registers are half-words addressed by their offset in the I/O space;
`REG16(x)` of the C source is a read (`REG16`) or a write (`REG16_set`) of the
half-word at offset `x`.  The machine state carries the register file, the
file-scope variable `rgbFormat` and the chronological log of register writes.

C `int` values are 32-bit two's complement: bit patterns are kept as natural
numbers below `2 ^ 32` for the bitwise code, and as integers wrapped by `i32`
for the arithmetic code.  A store to a half-word register keeps the low 16
bits.

The input register GPIOBPINLVL is a stream of samples, one per read
(`PinReader`); the busy-wait loops on it take a bound on the number of polls
and return `none` when it is exhausted.
-/

namespace Orcus

/-! ## Data model -/

/-- Modelled from the spec: the enumeration `RgbFormat` declared in `rgb.h`,
which is not among the sources.  The spec enumerates four pixel formats and
`rgbSetScale` names them `P4BPP`, `P8BPP`, `RGB565` and (in a comment)
`RGB888`. -/
inductive RgbFormat where
  | P4BPP
  | P8BPP
  | RGB565
  | RGB888
  deriving DecidableEq, Repr

/-- The constants and macros of `gp2xregs.h` and `rgb.h` that `display.c`
uses for the RGB layer.  The headers are not among the sources, so the
register offsets, the macro `MLC_STL_BPP` and the numeric values of the
enumerators are parameters of the model. -/
structure Gp2xRegs where
  MLC_STL_CNTL : Nat
  MLC_OVLAY_CNTR : Nat
  MLC_STL_MIXMUX : Nat
  MLC_STL_ALPHAL : Nat
  MLC_STL_ALPHAH : Nat
  MLC_STL_CKEY_GR : Nat
  MLC_STL_CKEY_B : Nat
  MLC_STL_HSC : Nat
  MLC_STL_VSCL : Nat
  MLC_STL_VSCH : Nat
  MLC_STL_HW : Nat
  MLC_STL_OADRL : Nat
  MLC_STL_OADRH : Nat
  MLC_STL_EADRL : Nat
  MLC_STL_EADRH : Nat
  MLC_STLn_STX : Nat
  MLC_STL_PALLT_A : Nat
  MLC_STL_PALLT_D : Nat
  /-- The macro `MLC_STL_BPP(x)`. -/
  MLC_STL_BPP : Nat → Nat
  /-- Numeric value of each `RgbFormat` enumerator. -/
  formatValue : RgbFormat → Nat
  NO_BLENDING : Nat
  COLOUR_KEY : Nat
  ALPHA : Nat

/-- Machine state seen by `display.c`. -/
structure Machine where
  /-- Content of the half-word register at each offset. -/
  regs : Nat → Nat
  /-- The file-scope variable `static RgbFormat rgbFormat`. -/
  rgbFormat : RgbFormat
  /-- Every register write so far, oldest first, as (offset, stored value). -/
  writes : List (Nat × Nat)

/-- Modelled from the spec: the macro `REG16` of `gp2xregs.h`, which is not
among the sources, used as a read.  The spec's register access layer "exposes
16-bit read/write at fixed physical offsets"; a read yields the half-word
stored at offset `a`. -/
def REG16 (s : Machine) (a : Nat) : Nat :=
  s.regs a % 65536

/-- Modelled from the spec: the macro `REG16` of `gp2xregs.h` used as the
target of an assignment `REG16(a) = v`.  The low 16 bits of `v` are stored at
offset `a` and the write is appended to the log. -/
def REG16_set (s : Machine) (a v : Nat) : Machine :=
  { s with
    regs := Function.update s.regs a (v % 65536)
    writes := s.writes ++ [(a, v % 65536)] }

/-- Bit pattern of `~x` for a 32-bit `int`. -/
def not32 (x : Nat) : Nat :=
  4294967295 ^^^ (x % 4294967296)

/-- Wrap an integer to the range of a 32-bit two's complement `int`. -/
def i32 (x : Int) : Int :=
  (x + 2147483648) % 4294967296 - 2147483648

/-- Conversion to `uint16_t`. -/
def u16 (x : Int) : Nat :=
  (x % 65536).toNat

/-- Conversion to `uint32_t`. -/
def u32 (x : Int) : Nat :=
  (x % 4294967296).toNat

/-- Bit `i` of a register value. -/
def bitOf (v i : Nat) : Bool :=
  v.testBit i

/-- The `width`-bit field of a register value at bit offset `off`. -/
def fieldOf (v off width : Nat) : Nat :=
  (v >>> off) % 2 ^ width

/-! ## The functions of `display.c` -/

/-- `rgbSetScale(srcW, srcH)`, display.c lines 103-118. -/
def rgbSetScale (hw : Gp2xRegs) (srcW srcH : Int) (s : Machine) : Machine :=
  let horizontalPixelWidth : Nat :=
    u16 (if s.rgbFormat = RgbFormat.P4BPP then Int.tdiv srcW 2
      else if s.rgbFormat = RgbFormat.P8BPP then srcW
      else if s.rgbFormat = RgbFormat.RGB565 then i32 (srcW * 2)
      else i32 (srcW * 3))
  let hScale : Nat := u16 (if srcW = 0 then 0 else Int.tdiv (i32 (srcW * 1024)) 320)
  let vScale : Nat :=
    u32 (if srcH = 0 then 0 else Int.tdiv (i32 (srcH * (horizontalPixelWidth : Int))) 240)
  let s := REG16_set s hw.MLC_STL_HSC (hScale &&& 0xFFFF)
  let s := REG16_set s hw.MLC_STL_VSCL (vScale &&& 0xFFFF)
  let s := REG16_set s hw.MLC_STL_VSCH (vScale >>> 16)
  REG16_set s hw.MLC_STL_HW horizontalPixelWidth

/-- `rgbSetPixelFormat(format)`, display.c lines 48-55. -/
def rgbSetPixelFormat (hw : Gp2xRegs) (format : RgbFormat) (s : Machine) : Machine :=
  let s := { s with rgbFormat := format }
  let s := REG16_set s hw.MLC_STL_CNTL
    (REG16 s hw.MLC_STL_CNTL &&& not32 (hw.MLC_STL_BPP 3))
  let s := REG16_set s hw.MLC_STL_CNTL
    (REG16 s hw.MLC_STL_CNTL ||| hw.MLC_STL_BPP (hw.formatValue format))
  rgbSetScale hw 320 240 s

/-- `rgbToggleRegion(region, onOff)`, display.c lines 57-62.  Regions are
`1..5`; for them `region - 1` does not go below zero. -/
def rgbToggleRegion (hw : Gp2xRegs) (region : Nat) (onOff : Bool) (s : Machine) : Machine :=
  let shift := (region - 1) * 2
  let s := REG16_set s hw.MLC_STL_CNTL
    ((REG16 s hw.MLC_STL_CNTL &&& not32 (1 <<< shift)) ||| 0xAA ||| (onOff.toNat <<< shift))
  let shift2 := (region - 1) + 2
  REG16_set s hw.MLC_OVLAY_CNTR
    ((REG16 s hw.MLC_OVLAY_CNTR &&& not32 (1 <<< shift2)) ||| (onOff.toNat <<< shift2))

/-- `orcus_rgb_blend(region, mode)`, display.c lines 65-68. -/
def orcus_rgb_blend (hw : Gp2xRegs) (region mode : Nat) (s : Machine) : Machine :=
  let shift := (region - 1) * 2
  REG16_set s hw.MLC_STL_MIXMUX
    ((REG16 s hw.MLC_STL_MIXMUX &&& not32 (3 <<< shift)) ||| (mode <<< shift))

/-- `orcus_rgb_set_alpha(region, alpha)`, display.c lines 70-78. -/
def orcus_rgb_set_alpha (hw : Gp2xRegs) (region alpha : Nat) (s : Machine) : Machine :=
  let shift := if region ≤ 3 then region * 4 else (region - 3) * 4
  let masked_alpha := (alpha &&& 0xF) % 256
  if region ≤ 3 then
    REG16_set s hw.MLC_STL_ALPHAL
      ((REG16 s hw.MLC_STL_ALPHAL &&& not32 (0xF <<< shift)) ||| (masked_alpha <<< shift))
  else
    REG16_set s hw.MLC_STL_ALPHAH
      ((REG16 s hw.MLC_STL_ALPHAH &&& not32 (0xF <<< shift)) ||| (masked_alpha <<< shift))

/-- `rgbRegionBlendAlpha(region, alpha)`, display.c lines 81-84. -/
def rgbRegionBlendAlpha (hw : Gp2xRegs) (region alpha : Nat) (s : Machine) : Machine :=
  orcus_rgb_set_alpha hw region alpha (orcus_rgb_blend hw region hw.ALPHA s)

/-- `rgbRegionBlendColourKey(region)`, display.c lines 87-91. -/
def rgbRegionBlendColourKey (hw : Gp2xRegs) (region : Nat) (s : Machine) : Machine :=
  orcus_rgb_blend hw region hw.COLOUR_KEY (orcus_rgb_set_alpha hw region 15 s)

/-- `rgbRegionNoBlend(region)`, display.c lines 93-95. -/
def rgbRegionNoBlend (hw : Gp2xRegs) (region : Nat) (s : Machine) : Machine :=
  orcus_rgb_blend hw region hw.NO_BLENDING s

/-- `rgbColourKey(r, g, b)`, display.c lines 97-100; the arguments are
`uint8_t`. -/
def rgbColourKey (hw : Gp2xRegs) (r g b : Nat) (s : Machine) : Machine :=
  let s := REG16_set s hw.MLC_STL_CKEY_GR (((g % 256) <<< 8) ||| (r % 256))
  REG16_set s hw.MLC_STL_CKEY_B (b % 256)

/-- `rgbSetFbAddress(fb)`, display.c lines 120-126; `fb` is the pointer value. -/
def rgbSetFbAddress (hw : Gp2xRegs) (fb : Nat) (s : Machine) : Machine :=
  let addr := fb % 4294967296
  let s := REG16_set s hw.MLC_STL_OADRL (addr &&& 0xFFFF)
  let s := REG16_set s hw.MLC_STL_OADRH (addr >>> 16)
  let s := REG16_set s hw.MLC_STL_EADRL (addr &&& 0xFFFF)
  REG16_set s hw.MLC_STL_EADRH (addr >>> 16)

/-- `rgbSetRegionPosition(region, x, y, width, height)`, display.c lines
129-137. -/
def rgbSetRegionPosition (hw : Gp2xRegs) (region : Nat) (x y width height : Int)
    (s : Machine) : Machine :=
  if region < 5 then
    let baseAddr : Nat := u16 ((hw.MLC_STLn_STX : Int) + ((region : Int) - 1) * 8)
    let s := REG16_set s baseAddr (u16 x)
    let s := REG16_set s (baseAddr + 2) (u16 (x + width - 1))
    let s := REG16_set s (baseAddr + 4) (u16 y)
    REG16_set s (baseAddr + 6) (u16 (y + height - 1))
  else s

/-- The loop `for(int i = count ; i-- ; )` of `rgbSetPalette`: the test
`i--` sees the old value, the body runs with the decremented one. -/
def rgbSetPaletteLoop (hw : Gp2xRegs) (colours : Nat → Nat) : Nat → Machine → Machine
  | 0, s => s
  | i + 1, s =>
    let c := colours i % 4294967296
    let s := REG16_set s hw.MLC_STL_PALLT_D ((c >>> 8) &&& 0xFFFF)
    let s := REG16_set s hw.MLC_STL_PALLT_D ((c >>> 24) &&& 0xFFFF)
    rgbSetPaletteLoop hw colours i s

/-- `rgbSetPalette(colours, count, startIdx)`, display.c lines 139-145, for
`count >= 0`.  `colours i` is the word `colours[i]`; `startIdx` is a
`uint8_t`. -/
def rgbSetPalette (hw : Gp2xRegs) (colours : Nat → Nat) (count startIdx : Nat)
    (s : Machine) : Machine :=
  let s := REG16_set s hw.MLC_STL_PALLT_A ((startIdx % 256) * 2)
  rgbSetPaletteLoop hw colours count s

/-! ## The palette port -/

/-- Modelled from the spec: the palette behind the two palette registers, a
half-word memory with a write pointer.  The hardware is not part of the
sources; the spec says that it auto-increments the write pointer. -/
structure Palette where
  ptr : Nat
  mem : Nat → Nat

/-- Modelled from the spec: effect of one register write on the palette.  A
write to `MLC_STL_PALLT_A` sets the pointer, a write to `MLC_STL_PALLT_D`
stores at the pointer and then increments it. -/
def Palette.write (hw : Gp2xRegs) (p : Palette) (w : Nat × Nat) : Palette :=
  if w.1 = hw.MLC_STL_PALLT_A then { p with ptr := w.2 }
  else if w.1 = hw.MLC_STL_PALLT_D then
    { ptr := p.ptr + 1, mem := Function.update p.mem p.ptr w.2 }
  else p

/-- Modelled from the spec: the palette after a sequence of register
writes. -/
def Palette.run (hw : Gp2xRegs) (p : Palette) (ws : List (Nat × Nat)) : Palette :=
  ws.foldl (Palette.write hw) p

/-- Palette entry `k`: the two half-words at `2k` and `2k + 1`. -/
def Palette.entry (p : Palette) (k : Nat) : Nat × Nat :=
  (p.mem (2 * k), p.mem (2 * k + 1))

/-- The two half-words that `rgbSetPalette` sends for the colour word `c`. -/
def paletteWords (c : Nat) : Nat × Nat :=
  (((c % 4294967296) >>> 8) &&& 0xFFFF, ((c % 4294967296) >>> 24) &&& 0xFFFF)

/-- The register writes of the loop of `rgbSetPalette` entered with
`i = n`: for each index from `n - 1` down to `0`, the two half-words of that
colour go to `MLC_STL_PALLT_D`. -/
def paletteLoopWrites (hw : Gp2xRegs) (colours : Nat → Nat) : Nat → List (Nat × Nat)
  | 0 => []
  | i + 1 =>
    (hw.MLC_STL_PALLT_D, (paletteWords (colours i)).1)
      :: (hw.MLC_STL_PALLT_D, (paletteWords (colours i)).2)
      :: paletteLoopWrites hw colours i

/-- The colour array `[c0, c1, c2]` of the palette example. -/
def threeColours : Nat → Nat :=
  fun i => [0x11223344, 0x55667788, 0x99AABBCC].getD i 0

/-- A palette with pointer 0 and every half-word 0. -/
def emptyPalette : Palette :=
  { ptr := 0, mem := fun _ => 0 }

/-! ## Display timing (`orcus_configure_display`) -/

/-- The constants and macros of `gp2xregs.h` that `orcus_configure_display`
uses.  The header is not among the sources, so the register offsets, the
field macros of DPC_CNTL and the mask `LCD_RESET` are parameters of the
model. -/
structure DpcRegs where
  DISPCSETREG : Nat
  DPC_CNTL : Nat
  DPC_CLKCNTL : Nat
  DPC_X_MAX : Nat
  DPC_Y_MAX : Nat
  DPC_HS_WIDTH : Nat
  DPC_HS_END : Nat
  DPC_HS_STR : Nat
  DPC_DE : Nat
  DPC_V_SYNC : Nat
  DPC_V_END : Nat
  DPC_FPIPOL1 : Nat
  DPC_FPIPOL2 : Nat
  DPC_FPIPOL3 : Nat
  DPC_FPIATV1 : Nat
  DPC_FPIATV2 : Nat
  DPC_FPIATV3 : Nat
  GPIOFOUT : Nat
  GPIOBOUT : Nat
  GPIOLOUT : Nat
  PAL : Nat → Nat
  CISCYNC : Nat → Nat
  HDTV : Nat → Nat
  DOT : Nat → Nat
  INTERLACE : Nat → Nat
  SYNCCBCR : Nat → Nat
  ESAVEN : Nat → Nat
  DOF : Nat → Nat
  ENB : Nat → Nat
  LCD_RESET : Nat

/-- Modelled from the spec: the external `orcus_delay(loops)`, declared but
not defined in `display.c`.  The spec calls it "a busy-wait of approximately
N timing units"; it touches no register. -/
def orcus_delay (_loops : Nat) (s : Machine) : Machine :=
  s

/-- The value first assigned to DPC_CNTL, display.c line 9. -/
def dpcCntlInit (hw : DpcRegs) : Nat :=
  hw.PAL 0 ||| hw.CISCYNC 0 ||| hw.HDTV 0 ||| hw.DOT 0 ||| hw.INTERLACE 0 ||| hw.SYNCCBCR 0
    ||| hw.ESAVEN 0 ||| hw.DOF 2

/-- `orcus_configure_display(isF200)`, display.c lines 7-43. -/
def orcus_configure_display (hw : DpcRegs) (isF200 : Bool) (s : Machine) : Machine :=
  let s := REG16_set s hw.DISPCSETREG 0x5E00
  let s := REG16_set s hw.DPC_CNTL (dpcCntlInit hw)
  let s := REG16_set s hw.DPC_CLKCNTL 0x10
  let s := REG16_set s hw.DPC_X_MAX (320 - 1)
  let s := REG16_set s hw.DPC_Y_MAX (240 - 1)
  let s := REG16_set s hw.DPC_HS_WIDTH 0x041D
  let s := REG16_set s hw.DPC_HS_END 0x0009
  let s := REG16_set s hw.DPC_HS_STR 0x0009
  let s := REG16_set s hw.DPC_DE 0x250
  let s := REG16_set s hw.DPC_V_SYNC 0x0403
  let s := REG16_set s hw.DPC_V_END 0x0816
  let s := REG16_set s hw.DPC_FPIPOL1 0x0010
  let s := REG16_set s hw.DPC_FPIPOL2 0xFFFF
  let s := REG16_set s hw.DPC_FPIPOL3 0x00FF
  let s := REG16_set s hw.DPC_FPIATV1 0xFFFF
  let s := REG16_set s hw.DPC_FPIATV2 0xFFFF
  let s := REG16_set s hw.DPC_FPIATV3 0xFFFF
  let s := REG16_set s hw.DPC_CNTL (REG16 s hw.DPC_CNTL ||| hw.ENB 1)
  if isF200 then
    let s := REG16_set s hw.GPIOFOUT (REG16 s hw.GPIOFOUT ||| 0xC)
    let s := orcus_delay 20 s
    let s := REG16_set s hw.GPIOBOUT (REG16 s hw.GPIOBOUT ||| hw.LCD_RESET)
    let s := orcus_delay 50 s
    let s := REG16_set s hw.GPIOBOUT (REG16 s hw.GPIOBOUT &&& not32 hw.LCD_RESET)
    let s := orcus_delay 50 s
    let s := REG16_set s hw.GPIOBOUT (REG16 s hw.GPIOBOUT ||| hw.LCD_RESET)
    REG16_set s hw.GPIOLOUT (REG16 s hw.GPIOLOUT ||| (1 <<< 11))
  else s

/-- The display timing registers in the order `orcus_configure_display`
first assigns them (lines 8-27). -/
def timingRegs (hw : DpcRegs) : List Nat :=
  [hw.DISPCSETREG, hw.DPC_CNTL, hw.DPC_CLKCNTL, hw.DPC_X_MAX, hw.DPC_Y_MAX, hw.DPC_HS_WIDTH,
    hw.DPC_HS_END, hw.DPC_HS_STR, hw.DPC_DE, hw.DPC_V_SYNC, hw.DPC_V_END, hw.DPC_FPIPOL1,
    hw.DPC_FPIPOL2, hw.DPC_FPIPOL3, hw.DPC_FPIATV1, hw.DPC_FPIATV2, hw.DPC_FPIATV3]

/-- The GPIO output registers. -/
def gpioOutRegs (hw : DpcRegs) : List Nat :=
  [hw.GPIOFOUT, hw.GPIOBOUT, hw.GPIOLOUT]

/-- The registers written on the F200 path (lines 32-41), in order. -/
def f200Regs (hw : DpcRegs) : List Nat :=
  [hw.GPIOFOUT, hw.GPIOBOUT, hw.GPIOBOUT, hw.GPIOBOUT, hw.GPIOLOUT]

/-- The writes that a call adds to the log: those of `s'` after the first
`s.writes.length`. -/
def newWrites (s s' : Machine) : List (Nat × Nat) :=
  s'.writes.drop s.writes.length

/-! ## Sync polling (`lcdVSync`, `lcdWaitNextVSync`, ...) -/

/-- Modelled from the spec: the macro `BIT` of `gp2xregs.h`, which is not
among the sources; the sync polls are "masked by a fixed bit per signal". -/
def BIT (n : Nat) : Nat :=
  1 <<< n

/-- Modelled from the spec: the input register GPIOBPINLVL as a stream of
samples.  The `k`-th read of the register returns `samples k`; `pos` counts
the reads done so far. -/
structure PinReader where
  samples : Nat → Nat
  pos : Nat

/-- `lcdVSync()`, display.c lines 147-149: one read of GPIOBPINLVL. -/
def lcdVSync (p : PinReader) : Bool × PinReader :=
  (((p.samples p.pos % 65536) &&& BIT 4) != 0, { p with pos := p.pos + 1 })

/-- `lcdHSync()`, display.c lines 156-158: one read of GPIOBPINLVL. -/
def lcdHSync (p : PinReader) : Bool × PinReader :=
  (((p.samples p.pos % 65536) &&& BIT 5) != 0, { p with pos := p.pos + 1 })

/-- The loop `while(poll() == cont);` with an empty body, run for at most
`fuel` polls: `none` when the fuel runs out before the loop exits. -/
def pollWhile (poll : PinReader → Bool × PinReader) (cont : Bool) :
    Nat → PinReader → Option PinReader
  | 0, _ => none
  | fuel + 1, p =>
    if (poll p).1 = cont then pollWhile poll cont fuel (poll p).2 else some (poll p).2

/-- `lcdWaitNextVSync()`, display.c lines 151-154: `while(lcdVSync());` then
`while(!lcdVSync());`, each loop with at most `fuel` polls. -/
def lcdWaitNextVSync (fuel : Nat) (p : PinReader) : Option PinReader :=
  match pollWhile lcdVSync true fuel p with
  | none => none
  | some q => pollWhile lcdVSync false fuel q

/-- `lcdWaitNextHSync()`, display.c lines 160-163. -/
def lcdWaitNextHSync (fuel : Nat) (p : PinReader) : Option PinReader :=
  match pollWhile lcdHSync true fuel p with
  | none => none
  | some q => pollWhile lcdHSync false fuel q

/-- One poll of bit `n` of the pin-level register. -/
def pollBit (n : Nat) (p : PinReader) : Bool × PinReader :=
  (((p.samples p.pos % 65536) &&& BIT n) != 0, { p with pos := p.pos + 1 })

/-! ## Derived quantities -/

/-- The alpha nibble of region `r`: the 4-bit field at offset r*4 of
MLC_STL_ALPHAL for r <= 3, at offset (r-3)*4 of MLC_STL_ALPHAH for r >= 4. -/
def alphaNibble (hw : Gp2xRegs) (s : Machine) (r : Nat) : Nat :=
  if r ≤ 3 then fieldOf (REG16 s hw.MLC_STL_ALPHAL) (r * 4) 4
  else fieldOf (REG16 s hw.MLC_STL_ALPHAH) ((r - 3) * 4) 4

/-! ## The scale factors as the spec words them -/

/-- The spec's stride: width in hardware pixel units, srcW/2 (4bpp), srcW
(8bpp), srcW*2 (16bpp), srcW*3 (24bpp). -/
def specStride (f : RgbFormat) (srcW : Nat) : Nat :=
  match f with
  | RgbFormat.P4BPP => srcW / 2
  | RgbFormat.P8BPP => srcW
  | RgbFormat.RGB565 => srcW * 2
  | RgbFormat.RGB888 => srcW * 3

/-- The spec's horizontal scale factor, `srcWidth==0 ? 0 : (srcWidth*1024)/320`. -/
def specHScale (srcW : Nat) : Nat :=
  if srcW = 0 then 0 else (srcW * 1024) / 320

/-- The spec's vertical scale factor,
`srcHeight==0 ? 0 : (srcHeight*strideWidth)/240`. -/
def specVScale (f : RgbFormat) (srcW srcH : Nat) : Nat :=
  if srcH = 0 then 0 else (srcH * specStride f srcW) / 240

/-- The stride of each pixel format for the panel width 320. -/
def defaultStride : RgbFormat → Nat
  | RgbFormat.P4BPP => 160
  | RgbFormat.P8BPP => 320
  | RgbFormat.RGB565 => 640
  | RgbFormat.RGB888 => 960

/-- The content of the four scale registers, in the order MLC_STL_HSC,
MLC_STL_HW, MLC_STL_VSCL, MLC_STL_VSCH. -/
def scaleRegs (hw : Gp2xRegs) (s : Machine) : Nat × Nat × Nat × Nat :=
  (REG16 s hw.MLC_STL_HSC, REG16 s hw.MLC_STL_HW, REG16 s hw.MLC_STL_VSCL,
    REG16 s hw.MLC_STL_VSCH)

/-! ## A concrete instance, for evaluating the model -/

/-- A register map with pairwise distinct offsets, `MLC_STL_BPP(x) = x << 9`
and enumerators numbered from zero. -/
def sampleRegs : Gp2xRegs where
  MLC_OVLAY_CNTR := 0x2880
  MLC_STL_CNTL := 0x28DA
  MLC_STL_MIXMUX := 0x28DC
  MLC_STL_ALPHAL := 0x28DE
  MLC_STL_ALPHAH := 0x28E0
  MLC_STLn_STX := 0x28E2
  MLC_STL_CKEY_GR := 0x2902
  MLC_STL_CKEY_B := 0x2904
  MLC_STL_HSC := 0x2906
  MLC_STL_VSCL := 0x2908
  MLC_STL_VSCH := 0x290A
  MLC_STL_HW := 0x290C
  MLC_STL_OADRL := 0x290E
  MLC_STL_OADRH := 0x2910
  MLC_STL_EADRL := 0x2912
  MLC_STL_EADRH := 0x2914
  MLC_STL_PALLT_A := 0x2958
  MLC_STL_PALLT_D := 0x295A
  MLC_STL_BPP := fun x => x <<< 9
  formatValue := fun f =>
    match f with
    | RgbFormat.P4BPP => 0
    | RgbFormat.P8BPP => 1
    | RgbFormat.RGB565 => 2
    | RgbFormat.RGB888 => 3
  NO_BLENDING := 0
  COLOUR_KEY := 1
  ALPHA := 2

/-- A machine with every register holding `v`, format `f` and an empty log. -/
def constMachine (v : Nat) (f : RgbFormat) : Machine :=
  { regs := fun _ => v, rgbFormat := f, writes := [] }

/-- A display-controller register map with pairwise distinct offsets, the
fields of DPC_CNTL at distinct bit positions and `LCD_RESET` a single bit. -/
def sampleDpc : DpcRegs where
  DISPCSETREG := 0x0924
  DPC_CNTL := 0x2800
  DPC_FPIPOL1 := 0x2804
  DPC_FPIPOL2 := 0x2806
  DPC_FPIPOL3 := 0x2808
  DPC_FPIATV1 := 0x280A
  DPC_FPIATV2 := 0x280C
  DPC_FPIATV3 := 0x280E
  DPC_X_MAX := 0x2816
  DPC_Y_MAX := 0x2818
  DPC_HS_WIDTH := 0x281A
  DPC_HS_STR := 0x281C
  DPC_HS_END := 0x281E
  DPC_V_SYNC := 0x2820
  DPC_V_END := 0x2822
  DPC_DE := 0x2826
  DPC_CLKCNTL := 0x2848
  GPIOBOUT := 0x1062
  GPIOFOUT := 0x106A
  GPIOLOUT := 0x1076
  PAL := fun x => x <<< 12
  CISCYNC := fun x => x <<< 11
  HDTV := fun x => x <<< 10
  DOT := fun x => x <<< 9
  INTERLACE := fun x => x <<< 8
  SYNCCBCR := fun x => x <<< 7
  ESAVEN := fun x => x <<< 6
  DOF := fun x => x <<< 1
  ENB := fun x => x <<< 0
  LCD_RESET := 1 <<< 7

/-- A sample stream that is high (bits 4 and 5 set) for the first three reads,
low for the next two, and high from then on. -/
def pulseSamples : Nat → Nat :=
  fun k => if k < 3 then 0x30 else if k < 5 then 0 else 0x30

/-! ## Register file and bit lemmas -/

theorem REG16_lt (s : Machine) (a : Nat) : REG16 s a < 65536 :=
  Nat.mod_lt _ (by norm_num)

theorem REG16_set_same (s : Machine) (a v : Nat) :
    REG16 (REG16_set s a v) a = v % 65536 := by
  simp [REG16, REG16_set]

theorem REG16_set_other (s : Machine) {a b : Nat} (v : Nat) (h : b ≠ a) :
    REG16 (REG16_set s a v) b = REG16 s b := by
  simp [REG16, REG16_set, Function.update_noteq h]

theorem testBit_not32 (x i : Nat) :
    (not32 x).testBit i = (decide (i < 32) && !x.testBit i) := by
  unfold not32
  rw [Nat.testBit_xor, show (4294967295 : Nat) = 2 ^ 32 - 1 by norm_num,
    Nat.testBit_two_pow_sub_one, show (4294967296 : Nat) = 2 ^ 32 by norm_num,
    Nat.testBit_mod_two_pow]
  by_cases h : i < 32 <;> simp [h]

theorem testBit_one_shiftLeft (k i : Nat) : (1 <<< k).testBit i = decide (i = k) := by
  rw [Nat.one_shiftLeft, Nat.testBit_two_pow]
  by_cases h : i = k
  · simp [h]
  · have h2 : ¬ k = i := fun e => h e.symm
    simp [h, h2]

theorem testBit_toNat_shiftLeft (b : Bool) (k i : Nat) :
    (b.toNat <<< k).testBit i = (decide (i = k) && b) := by
  cases b
  · simp
  · show (1 <<< k).testBit i = (decide (i = k) && true)
    rw [testBit_one_shiftLeft, Bool.and_true]

theorem testBit_mod_65536 (x i : Nat) :
    (x % 65536).testBit i = (decide (i < 16) && x.testBit i) := by
  rw [show (65536 : Nat) = 2 ^ 16 by norm_num, Nat.testBit_mod_two_pow]

theorem testBit_0xAA (i : Nat) :
    Nat.testBit 0xAA i = decide (i = 1 ∨ i = 3 ∨ i = 5 ∨ i = 7) := by
  by_cases h : i < 8
  · interval_cases i <;> decide
  · have hlt : 0xAA < 2 ^ i :=
      lt_of_lt_of_le (by norm_num : 0xAA < 2 ^ 8)
        (Nat.pow_le_pow_right (by norm_num) (not_lt.mp h))
    rw [Nat.testBit_lt_two_pow hlt]
    symm
    rw [decide_eq_false_iff_not]
    omega

/-- Bit `i` of a word in which the `w`-bit field at offset `k` has been
replaced by `v`, the way the C code does it with mask `m = 2 ^ w - 1`. -/
theorem testBit_putField (c m v k w i : Nat) (hm : m = 2 ^ w - 1) (hv : v < 2 ^ w)
    (hi : i < 32) :
    ((c &&& not32 (m <<< k)) ||| (v <<< k)).testBit i =
      if k ≤ i ∧ i < k + w then v.testBit (i - k) else c.testBit i := by
  rw [Nat.testBit_or, Nat.testBit_and, testBit_not32, Nat.testBit_shiftLeft,
    Nat.testBit_shiftLeft, hm, Nat.testBit_two_pow_sub_one]
  by_cases hk : k ≤ i
  · by_cases hw : i < k + w
    · have h1 : i - k < w := by omega
      simp [hk, hw, h1, hi]
    · have h1 : ¬ (i - k < w) := by omega
      have h2 : v.testBit (i - k) = false :=
        Nat.testBit_lt_two_pow
          (lt_of_lt_of_le hv (Nat.pow_le_pow_right (by norm_num) (by omega)))
      simp [hk, hw, h1, hi, h2]
  · have h1 : ¬ (i ≥ k) := hk
    simp [hk, hi]

theorem testBit_fieldOf (v off w j : Nat) :
    (fieldOf v off w).testBit j = (decide (j < w) && v.testBit (off + j)) := by
  unfold fieldOf
  rw [Nat.testBit_mod_two_pow, Nat.testBit_shiftRight]

/-- Two words that agree on the bits of a field have the same field. -/
theorem fieldOf_congr (x y off w : Nat)
    (h : ∀ j, j < w → x.testBit (off + j) = y.testBit (off + j)) :
    fieldOf x off w = fieldOf y off w := by
  apply Nat.eq_of_testBit_eq
  intro j
  rw [testBit_fieldOf, testBit_fieldOf]
  by_cases hj : j < w
  · simp [hj, h j hj]
  · simp [hj]

/-- A field whose bits are those of `v` holds `v`. -/
theorem fieldOf_eq (x v off w : Nat) (hv : v < 2 ^ w)
    (h : ∀ j, j < w → x.testBit (off + j) = v.testBit j) :
    fieldOf x off w = v := by
  apply Nat.eq_of_testBit_eq
  intro j
  rw [testBit_fieldOf]
  by_cases hj : j < w
  · simp [hj, h j hj]
  · have h2 : v.testBit j = false :=
      Nat.testBit_lt_two_pow
        (lt_of_lt_of_le hv (Nat.pow_le_pow_right (by norm_num) (by omega)))
    simp [hj, h2]

theorem and_0xF_lt (a : Nat) : a &&& 0xF < 2 ^ 4 :=
  Nat.lt_succ_of_le Nat.and_le_right

theorem masked_alpha_eq (a : Nat) : (a &&& 0xF) % 256 = a &&& 0xF :=
  Nat.mod_eq_of_lt (lt_trans (and_0xF_lt a) (by norm_num))

/-! ## `rgbToggleRegion` bit by bit -/

/-- Bit `i` of `MLC_STL_CNTL` after a toggle: the region's bit takes `onOff`,
bits 1, 3, 5 and 7 are set by the constant `0xAA`, the rest is kept. -/
theorem toggle_CNTL_bit (hw : Gp2xRegs) (s : Machine) (r : Nat) (onOff : Bool) (i : Nat)
    (hi : i < 16) (hne : hw.MLC_STL_CNTL ≠ hw.MLC_OVLAY_CNTR) :
    bitOf (REG16 (rgbToggleRegion hw r onOff s) hw.MLC_STL_CNTL) i =
      if i = (r - 1) * 2 then onOff
      else (bitOf (REG16 s hw.MLC_STL_CNTL) i || decide (i = 1 ∨ i = 3 ∨ i = 5 ∨ i = 7)) := by
  unfold rgbToggleRegion bitOf
  simp only [REG16_set_other _ _ hne, REG16_set_same]
  rw [testBit_mod_65536, Nat.testBit_or, Nat.testBit_or, Nat.testBit_and, testBit_not32,
    testBit_one_shiftLeft, testBit_toNat_shiftLeft, testBit_0xAA]
  have h32 : i < 32 := by omega
  by_cases h : i = (r - 1) * 2
  · have hodd : ¬ (i = 1 ∨ i = 3 ∨ i = 5 ∨ i = 7) := by omega
    simp [h32, hi, hodd, ← h]
  · simp [h32, hi, h]

/-- Bit `i` of `MLC_OVLAY_CNTR` after a toggle: the region's overlay bit takes
`onOff`, the rest is kept. -/
theorem toggle_OVLAY_bit (hw : Gp2xRegs) (s : Machine) (r : Nat) (onOff : Bool) (i : Nat)
    (hi : i < 16) (hne : hw.MLC_STL_CNTL ≠ hw.MLC_OVLAY_CNTR) :
    bitOf (REG16 (rgbToggleRegion hw r onOff s) hw.MLC_OVLAY_CNTR) i =
      if i = (r - 1) + 2 then onOff else bitOf (REG16 s hw.MLC_OVLAY_CNTR) i := by
  unfold rgbToggleRegion bitOf
  simp only [REG16_set_other _ _ hne.symm, REG16_set_same]
  rw [testBit_mod_65536, Nat.testBit_or, Nat.testBit_and, testBit_not32,
    testBit_one_shiftLeft, testBit_toNat_shiftLeft]
  have h32 : i < 32 := by omega
  by_cases h : i = (r - 1) + 2
  · simp [h32, hi, ← h]
  · simp [h32, hi, h]

theorem bitOf_REG16_high (s : Machine) (a i : Nat) (h : 16 ≤ i) :
    bitOf (REG16 s a) i = false := by
  unfold bitOf
  exact Nat.testBit_lt_two_pow
    (lt_of_lt_of_le (REG16_lt s a)
      (by rw [show (65536 : Nat) = 2 ^ 16 by norm_num]; exact Nat.pow_le_pow_right (by norm_num) h))

/-! ## Region enable (`rgbToggleRegion`) -/

/-- C1 (as stated, refuted): with region 1 enabled beforehand (both control
bits set), `rgbToggleRegion(1, true)` followed by `rgbToggleRegion(1, false)`
leaves both bits clear, not at their prior values. -/
theorem rgbToggleRegion_on_off_not_restored :
    bitOf (REG16 (constMachine 0xFFFF RgbFormat.RGB565) sampleRegs.MLC_STL_CNTL) ((1 - 1) * 2) = true
    ∧ bitOf (REG16 (rgbToggleRegion sampleRegs 1 false
        (rgbToggleRegion sampleRegs 1 true (constMachine 0xFFFF RgbFormat.RGB565)))
        sampleRegs.MLC_STL_CNTL) ((1 - 1) * 2) = false
    ∧ bitOf (REG16 (constMachine 0xFFFF RgbFormat.RGB565) sampleRegs.MLC_OVLAY_CNTR) ((1 - 1) + 2) = true
    ∧ bitOf (REG16 (rgbToggleRegion sampleRegs 1 false
        (rgbToggleRegion sampleRegs 1 true (constMachine 0xFFFF RgbFormat.RGB565)))
        sampleRegs.MLC_OVLAY_CNTR) ((1 - 1) + 2) = false := by
  decide

/-- C1 (amended): for every register state and every region r in 1..5,
`rgbToggleRegion(r, true)` followed by `rgbToggleRegion(r, false)` leaves bit
(r-1)*2 of MLC_STL_CNTL and bit (r-1)+2 of MLC_OVLAY_CNTR clear, and leaves
the enable bit and the overlay bit of every other region r' in 1..5
unchanged. -/
theorem rgbToggleRegion_on_off (hw : Gp2xRegs) (s : Machine) (r : Nat)
    (hr1 : 1 ≤ r) (hr5 : r ≤ 5) (hne : hw.MLC_STL_CNTL ≠ hw.MLC_OVLAY_CNTR) :
    bitOf (REG16 (rgbToggleRegion hw r false (rgbToggleRegion hw r true s))
        hw.MLC_STL_CNTL) ((r - 1) * 2) = false
    ∧ bitOf (REG16 (rgbToggleRegion hw r false (rgbToggleRegion hw r true s))
        hw.MLC_OVLAY_CNTR) ((r - 1) + 2) = false
    ∧ ∀ r', 1 ≤ r' → r' ≤ 5 → r' ≠ r →
        bitOf (REG16 (rgbToggleRegion hw r false (rgbToggleRegion hw r true s))
            hw.MLC_STL_CNTL) ((r' - 1) * 2)
          = bitOf (REG16 s hw.MLC_STL_CNTL) ((r' - 1) * 2)
        ∧ bitOf (REG16 (rgbToggleRegion hw r false (rgbToggleRegion hw r true s))
            hw.MLC_OVLAY_CNTR) ((r' - 1) + 2)
          = bitOf (REG16 s hw.MLC_OVLAY_CNTR) ((r' - 1) + 2) := by
  refine ⟨?_, ?_, ?_⟩
  · rw [toggle_CNTL_bit hw _ r false _ (by omega) hne, if_pos rfl]
  · rw [toggle_OVLAY_bit hw _ r false _ (by omega) hne, if_pos rfl]
  · intro r' h1 h5 hrr
    have hc : (r' - 1) * 2 ≠ (r - 1) * 2 := by omega
    have ho : (r' - 1) + 2 ≠ (r - 1) + 2 := by omega
    have hodd : ¬ ((r' - 1) * 2 = 1 ∨ (r' - 1) * 2 = 3 ∨ (r' - 1) * 2 = 5 ∨ (r' - 1) * 2 = 7) := by
      omega
    constructor
    · rw [toggle_CNTL_bit hw _ r false _ (by omega) hne, if_neg hc,
        toggle_CNTL_bit hw _ r true _ (by omega) hne, if_neg hc,
        decide_eq_false hodd, Bool.or_false, Bool.or_false]
    · rw [toggle_OVLAY_bit hw _ r false _ (by omega) hne, if_neg ho,
        toggle_OVLAY_bit hw _ r true _ (by omega) hne, if_neg ho]

/-- Witness of C1 (amended): region 2 on a machine whose registers hold
0xFFFF. -/
theorem rgbToggleRegion_on_off_witness :
    bitOf (REG16 (rgbToggleRegion sampleRegs 2 false
        (rgbToggleRegion sampleRegs 2 true (constMachine 0xFFFF RgbFormat.RGB565)))
        sampleRegs.MLC_STL_CNTL) ((2 - 1) * 2) = false
    ∧ bitOf (REG16 (rgbToggleRegion sampleRegs 2 false
        (rgbToggleRegion sampleRegs 2 true (constMachine 0xFFFF RgbFormat.RGB565)))
        sampleRegs.MLC_OVLAY_CNTR) ((2 - 1) + 2) = false
    ∧ ∀ r', 1 ≤ r' → r' ≤ 5 → r' ≠ 2 →
        bitOf (REG16 (rgbToggleRegion sampleRegs 2 false
            (rgbToggleRegion sampleRegs 2 true (constMachine 0xFFFF RgbFormat.RGB565)))
            sampleRegs.MLC_STL_CNTL) ((r' - 1) * 2)
          = bitOf (REG16 (constMachine 0xFFFF RgbFormat.RGB565) sampleRegs.MLC_STL_CNTL)
              ((r' - 1) * 2)
        ∧ bitOf (REG16 (rgbToggleRegion sampleRegs 2 false
            (rgbToggleRegion sampleRegs 2 true (constMachine 0xFFFF RgbFormat.RGB565)))
            sampleRegs.MLC_OVLAY_CNTR) ((r' - 1) + 2)
          = bitOf (REG16 (constMachine 0xFFFF RgbFormat.RGB565) sampleRegs.MLC_OVLAY_CNTR)
              ((r' - 1) + 2) :=
  rgbToggleRegion_on_off sampleRegs (constMachine 0xFFFF RgbFormat.RGB565) 2
    (by decide) (by decide) (by decide)

/-- C2: for every register state, every region r in 1..5 and both values of
onOff, after `rgbToggleRegion(r, onOff)` bit (r-1)*2 of MLC_STL_CNTL and bit
(r-1)+2 of MLC_OVLAY_CNTR both equal onOff. -/
theorem rgbToggleRegion_sets_pair (hw : Gp2xRegs) (s : Machine) (r : Nat) (onOff : Bool)
    (hr1 : 1 ≤ r) (hr5 : r ≤ 5) (hne : hw.MLC_STL_CNTL ≠ hw.MLC_OVLAY_CNTR) :
    bitOf (REG16 (rgbToggleRegion hw r onOff s) hw.MLC_STL_CNTL) ((r - 1) * 2) = onOff
    ∧ bitOf (REG16 (rgbToggleRegion hw r onOff s) hw.MLC_OVLAY_CNTR) ((r - 1) + 2) = onOff := by
  constructor
  · rw [toggle_CNTL_bit hw s r onOff _ (by omega) hne, if_pos rfl]
  · rw [toggle_OVLAY_bit hw s r onOff _ (by omega) hne, if_pos rfl]

/-- Witness of C2: enabling region 5 on a machine whose registers hold 0. -/
theorem rgbToggleRegion_sets_pair_witness :
    bitOf (REG16 (rgbToggleRegion sampleRegs 5 true (constMachine 0 RgbFormat.P8BPP))
        sampleRegs.MLC_STL_CNTL) ((5 - 1) * 2) = true
    ∧ bitOf (REG16 (rgbToggleRegion sampleRegs 5 true (constMachine 0 RgbFormat.P8BPP))
        sampleRegs.MLC_OVLAY_CNTR) ((5 - 1) + 2) = true :=
  rgbToggleRegion_sets_pair sampleRegs (constMachine 0 RgbFormat.P8BPP) 5 true
    (by decide) (by decide) (by decide)

/-- C3 (as stated, refuted): on a machine whose registers hold 0,
`rgbToggleRegion(1, true)` changes bit 1 of MLC_STL_CNTL, which is not the
region's bit (r-1)*2 = 0, from 0 to 1. -/
theorem rgbToggleRegion_changes_bit1 :
    (1 : Nat) ≠ (1 - 1) * 2
    ∧ bitOf (REG16 (constMachine 0 RgbFormat.RGB565) sampleRegs.MLC_STL_CNTL) 1 = false
    ∧ bitOf (REG16 (rgbToggleRegion sampleRegs 1 true (constMachine 0 RgbFormat.RGB565))
        sampleRegs.MLC_STL_CNTL) 1 = true := by
  decide

/-- C3 (amended): for every register state, every region r in 1..5 and both
values of onOff, `rgbToggleRegion(r, onOff)` keeps every bit of MLC_STL_CNTL
other than bit (r-1)*2 and bits 1, 3, 5 and 7 (the constant 0xAA), and every
bit of MLC_OVLAY_CNTR other than bit (r-1)+2. -/
theorem rgbToggleRegion_frame (hw : Gp2xRegs) (s : Machine) (r : Nat) (onOff : Bool)
    (_hr1 : 1 ≤ r) (_hr5 : r ≤ 5) (hne : hw.MLC_STL_CNTL ≠ hw.MLC_OVLAY_CNTR) :
    (∀ i, i ≠ (r - 1) * 2 → i ≠ 1 → i ≠ 3 → i ≠ 5 → i ≠ 7 →
        bitOf (REG16 (rgbToggleRegion hw r onOff s) hw.MLC_STL_CNTL) i
          = bitOf (REG16 s hw.MLC_STL_CNTL) i)
    ∧ (∀ i, i ≠ (r - 1) + 2 →
        bitOf (REG16 (rgbToggleRegion hw r onOff s) hw.MLC_OVLAY_CNTR) i
          = bitOf (REG16 s hw.MLC_OVLAY_CNTR) i) := by
  constructor
  · intro i hi h1 h3 h5 h7
    by_cases h16 : i < 16
    · rw [toggle_CNTL_bit hw s r onOff i h16 hne, if_neg hi]
      have hodd : ¬ (i = 1 ∨ i = 3 ∨ i = 5 ∨ i = 7) := by omega
      rw [decide_eq_false hodd, Bool.or_false]
    · rw [bitOf_REG16_high _ _ _ (by omega), bitOf_REG16_high _ _ _ (by omega)]
  · intro i hi
    by_cases h16 : i < 16
    · rw [toggle_OVLAY_bit hw s r onOff i h16 hne, if_neg hi]
    · rw [bitOf_REG16_high _ _ _ (by omega), bitOf_REG16_high _ _ _ (by omega)]

/-- Witness of C3 (amended): disabling region 3 on a machine whose registers
hold 0x0F0F. -/
theorem rgbToggleRegion_frame_witness :
    (∀ i, i ≠ (3 - 1) * 2 → i ≠ 1 → i ≠ 3 → i ≠ 5 → i ≠ 7 →
        bitOf (REG16 (rgbToggleRegion sampleRegs 3 false (constMachine 0x0F0F RgbFormat.P4BPP))
            sampleRegs.MLC_STL_CNTL) i
          = bitOf (REG16 (constMachine 0x0F0F RgbFormat.P4BPP) sampleRegs.MLC_STL_CNTL) i)
    ∧ (∀ i, i ≠ (3 - 1) + 2 →
        bitOf (REG16 (rgbToggleRegion sampleRegs 3 false (constMachine 0x0F0F RgbFormat.P4BPP))
            sampleRegs.MLC_OVLAY_CNTR) i
          = bitOf (REG16 (constMachine 0x0F0F RgbFormat.P4BPP) sampleRegs.MLC_OVLAY_CNTR) i) :=
  rgbToggleRegion_frame sampleRegs (constMachine 0x0F0F RgbFormat.P4BPP) 3 false
    (by decide) (by decide) (by decide)

/-! ## Blend mode and alpha (`orcus_rgb_blend`, `orcus_rgb_set_alpha`) -/

/-- Bit `i` of `MLC_STL_MIXMUX` after `orcus_rgb_blend(region, mode)` with a
2-bit mode. -/
theorem blend_MIXMUX_bit (hw : Gp2xRegs) (s : Machine) (r mode i : Nat)
    (hmode : mode < 4) (hi : i < 16) :
    bitOf (REG16 (orcus_rgb_blend hw r mode s) hw.MLC_STL_MIXMUX) i =
      if (r - 1) * 2 ≤ i ∧ i < (r - 1) * 2 + 2 then mode.testBit (i - (r - 1) * 2)
      else bitOf (REG16 s hw.MLC_STL_MIXMUX) i := by
  unfold orcus_rgb_blend bitOf
  simp only [REG16_set_same]
  rw [testBit_mod_65536,
    testBit_putField _ 3 mode _ 2 i (by norm_num) (by omega) (by omega)]
  simp [hi]

theorem blend_other (hw : Gp2xRegs) (s : Machine) (r mode a : Nat)
    (h : a ≠ hw.MLC_STL_MIXMUX) :
    REG16 (orcus_rgb_blend hw r mode s) a = REG16 s a := by
  unfold orcus_rgb_blend
  exact REG16_set_other _ _ h

/-- Bit `i` of `MLC_STL_ALPHAL` after `orcus_rgb_set_alpha` on a region of
the low register. -/
theorem set_alpha_ALPHAL_bit (hw : Gp2xRegs) (s : Machine) (r a i : Nat)
    (hr : r ≤ 3) (hi : i < 16) :
    bitOf (REG16 (orcus_rgb_set_alpha hw r a s) hw.MLC_STL_ALPHAL) i =
      if r * 4 ≤ i ∧ i < r * 4 + 4 then (a &&& 0xF).testBit (i - r * 4)
      else bitOf (REG16 s hw.MLC_STL_ALPHAL) i := by
  unfold orcus_rgb_set_alpha bitOf
  simp only [if_pos hr, REG16_set_same, masked_alpha_eq]
  rw [testBit_mod_65536,
    testBit_putField _ 0xF (a &&& 0xF) _ 4 i (by norm_num) (and_0xF_lt a) (by omega)]
  simp [hi]

/-- Bit `i` of `MLC_STL_ALPHAH` after `orcus_rgb_set_alpha` on a region of
the high register. -/
theorem set_alpha_ALPHAH_bit (hw : Gp2xRegs) (s : Machine) (r a i : Nat)
    (hr : 4 ≤ r) (hi : i < 16) :
    bitOf (REG16 (orcus_rgb_set_alpha hw r a s) hw.MLC_STL_ALPHAH) i =
      if (r - 3) * 4 ≤ i ∧ i < (r - 3) * 4 + 4 then (a &&& 0xF).testBit (i - (r - 3) * 4)
      else bitOf (REG16 s hw.MLC_STL_ALPHAH) i := by
  have hr3 : ¬ r ≤ 3 := by omega
  unfold orcus_rgb_set_alpha bitOf
  simp only [if_neg hr3, REG16_set_same, masked_alpha_eq]
  rw [testBit_mod_65536,
    testBit_putField _ 0xF (a &&& 0xF) _ 4 i (by norm_num) (and_0xF_lt a) (by omega)]
  simp [hi]

theorem set_alpha_low_other (hw : Gp2xRegs) (s : Machine) (r a b : Nat)
    (hr : r ≤ 3) (h : b ≠ hw.MLC_STL_ALPHAL) :
    REG16 (orcus_rgb_set_alpha hw r a s) b = REG16 s b := by
  unfold orcus_rgb_set_alpha
  simp only [if_pos hr]
  exact REG16_set_other _ _ h

theorem set_alpha_high_other (hw : Gp2xRegs) (s : Machine) (r a b : Nat)
    (hr : 4 ≤ r) (h : b ≠ hw.MLC_STL_ALPHAH) :
    REG16 (orcus_rgb_set_alpha hw r a s) b = REG16 s b := by
  have hr3 : ¬ r ≤ 3 := by omega
  unfold orcus_rgb_set_alpha
  simp only [if_neg hr3]
  exact REG16_set_other _ _ h

/-- C4: for every register state, every region r in 1..5 and every alpha a
(0..255 included), `rgbRegionBlendAlpha(r, a)` stores a & 0xF in the 4-bit
field at bit offset r*4 of MLC_STL_ALPHAL when r <= 3, or at bit offset
(r-3)*4 of MLC_STL_ALPHAH when r >= 4, and leaves every other nibble of both
alpha registers unchanged. -/
theorem rgbRegionBlendAlpha_nibble (hw : Gp2xRegs) (s : Machine) (r a : Nat)
    (hr1 : 1 ≤ r) (hr5 : r ≤ 5) (ha : a ≤ 255)
    (hLM : hw.MLC_STL_ALPHAL ≠ hw.MLC_STL_MIXMUX)
    (hHM : hw.MLC_STL_ALPHAH ≠ hw.MLC_STL_MIXMUX)
    (hLH : hw.MLC_STL_ALPHAL ≠ hw.MLC_STL_ALPHAH) :
    (r ≤ 3 →
      fieldOf (REG16 (rgbRegionBlendAlpha hw r a s) hw.MLC_STL_ALPHAL) (r * 4) 4 = a &&& 0xF)
    ∧ (4 ≤ r →
      fieldOf (REG16 (rgbRegionBlendAlpha hw r a s) hw.MLC_STL_ALPHAH) ((r - 3) * 4) 4
        = a &&& 0xF)
    ∧ (∀ k, k < 4 → (r ≤ 3 → k ≠ r) →
      fieldOf (REG16 (rgbRegionBlendAlpha hw r a s) hw.MLC_STL_ALPHAL) (k * 4) 4
        = fieldOf (REG16 s hw.MLC_STL_ALPHAL) (k * 4) 4)
    ∧ (∀ k, k < 4 → (4 ≤ r → k ≠ r - 3) →
      fieldOf (REG16 (rgbRegionBlendAlpha hw r a s) hw.MLC_STL_ALPHAH) (k * 4) 4
        = fieldOf (REG16 s hw.MLC_STL_ALPHAH) (k * 4) 4) := by
  have _hr1 := hr1
  have _hr5 := hr5
  have _ha := ha
  unfold rgbRegionBlendAlpha
  refine ⟨?_, ?_, ?_, ?_⟩
  · intro h3
    apply fieldOf_eq _ _ _ _ (and_0xF_lt a)
    intro j hj
    have hb := set_alpha_ALPHAL_bit hw (orcus_rgb_blend hw r hw.ALPHA s) r a (r * 4 + j) h3
      (by omega)
    unfold bitOf at hb
    rw [hb, if_pos (by omega), Nat.add_sub_cancel_left]
  · intro h4
    apply fieldOf_eq _ _ _ _ (and_0xF_lt a)
    intro j hj
    have hb := set_alpha_ALPHAH_bit hw (orcus_rgb_blend hw r hw.ALPHA s) r a
      ((r - 3) * 4 + j) h4 (by omega)
    unfold bitOf at hb
    rw [hb, if_pos (by omega), Nat.add_sub_cancel_left]
  · intro k hk hkr
    by_cases h3 : r ≤ 3
    · apply fieldOf_congr
      intro j hj
      have hb := set_alpha_ALPHAL_bit hw (orcus_rgb_blend hw r hw.ALPHA s) r a (k * 4 + j) h3
        (by omega)
      have hkr3 := hkr h3
      unfold bitOf at hb
      rw [hb, if_neg (by omega), blend_other hw s r hw.ALPHA _ hLM]
    · rw [set_alpha_high_other hw _ r a _ (by omega) hLH, blend_other hw s r hw.ALPHA _ hLM]
  · intro k hk hkr
    by_cases h4 : 4 ≤ r
    · apply fieldOf_congr
      intro j hj
      have hb := set_alpha_ALPHAH_bit hw (orcus_rgb_blend hw r hw.ALPHA s) r a (k * 4 + j) h4
        (by omega)
      have hkr3 := hkr h4
      unfold bitOf at hb
      rw [hb, if_neg (by omega), blend_other hw s r hw.ALPHA _ hHM]
    · rw [set_alpha_low_other hw _ r a _ (by omega) hLH.symm,
        blend_other hw s r hw.ALPHA _ hHM]

/-- Witness of C4: region 4 with alpha 0xAB on a machine whose registers hold
0x1234. -/
theorem rgbRegionBlendAlpha_nibble_witness :
    (4 ≤ 3 →
      fieldOf (REG16 (rgbRegionBlendAlpha sampleRegs 4 0xAB (constMachine 0x1234 RgbFormat.RGB565))
        sampleRegs.MLC_STL_ALPHAL) (4 * 4) 4 = 0xAB &&& 0xF)
    ∧ (4 ≤ 4 →
      fieldOf (REG16 (rgbRegionBlendAlpha sampleRegs 4 0xAB (constMachine 0x1234 RgbFormat.RGB565))
        sampleRegs.MLC_STL_ALPHAH) ((4 - 3) * 4) 4 = 0xAB &&& 0xF)
    ∧ (∀ k, k < 4 → (4 ≤ 3 → k ≠ 4) →
      fieldOf (REG16 (rgbRegionBlendAlpha sampleRegs 4 0xAB (constMachine 0x1234 RgbFormat.RGB565))
        sampleRegs.MLC_STL_ALPHAL) (k * 4) 4
        = fieldOf (REG16 (constMachine 0x1234 RgbFormat.RGB565) sampleRegs.MLC_STL_ALPHAL)
            (k * 4) 4)
    ∧ (∀ k, k < 4 → (4 ≤ 4 → k ≠ 4 - 3) →
      fieldOf (REG16 (rgbRegionBlendAlpha sampleRegs 4 0xAB (constMachine 0x1234 RgbFormat.RGB565))
        sampleRegs.MLC_STL_ALPHAH) (k * 4) 4
        = fieldOf (REG16 (constMachine 0x1234 RgbFormat.RGB565) sampleRegs.MLC_STL_ALPHAH)
            (k * 4) 4) :=
  rgbRegionBlendAlpha_nibble sampleRegs (constMachine 0x1234 RgbFormat.RGB565) 4 0xAB
    (by decide) (by decide) (by decide) (by decide) (by decide) (by decide)

/-- C5: for every register state and every region r in 1..5, after
`rgbRegionBlendColourKey(r)` the alpha nibble of region r (offset r*4 of
MLC_STL_ALPHAL for r <= 3, offset (r-3)*4 of MLC_STL_ALPHAH for r >= 4) holds
15 whatever it held before, and the 2-bit field at offset (r-1)*2 of
MLC_STL_MIXMUX holds COLOUR_KEY (a 2-bit mode value). -/
theorem rgbRegionBlendColourKey_alpha_max (hw : Gp2xRegs) (s : Machine) (r : Nat)
    (hr1 : 1 ≤ r) (hr5 : r ≤ 5) (hCK : hw.COLOUR_KEY < 4)
    (hLM : hw.MLC_STL_ALPHAL ≠ hw.MLC_STL_MIXMUX)
    (hHM : hw.MLC_STL_ALPHAH ≠ hw.MLC_STL_MIXMUX) :
    (r ≤ 3 →
      fieldOf (REG16 (rgbRegionBlendColourKey hw r s) hw.MLC_STL_ALPHAL) (r * 4) 4 = 15)
    ∧ (4 ≤ r →
      fieldOf (REG16 (rgbRegionBlendColourKey hw r s) hw.MLC_STL_ALPHAH) ((r - 3) * 4) 4 = 15)
    ∧ fieldOf (REG16 (rgbRegionBlendColourKey hw r s) hw.MLC_STL_MIXMUX) ((r - 1) * 2) 2
        = hw.COLOUR_KEY := by
  have _hr1 := hr1
  unfold rgbRegionBlendColourKey
  refine ⟨?_, ?_, ?_⟩
  · intro h3
    rw [blend_other hw _ r hw.COLOUR_KEY _ hLM]
    apply fieldOf_eq _ _ _ _ (by norm_num)
    intro j hj
    have hb := set_alpha_ALPHAL_bit hw s r 15 (r * 4 + j) h3 (by omega)
    unfold bitOf at hb
    rw [hb, if_pos (by omega), Nat.add_sub_cancel_left]
    rfl
  · intro h4
    rw [blend_other hw _ r hw.COLOUR_KEY _ hHM]
    apply fieldOf_eq _ _ _ _ (by norm_num)
    intro j hj
    have hb := set_alpha_ALPHAH_bit hw s r 15 ((r - 3) * 4 + j) h4 (by omega)
    unfold bitOf at hb
    rw [hb, if_pos (by omega), Nat.add_sub_cancel_left]
    rfl
  · apply fieldOf_eq _ _ _ _ (by omega)
    intro j hj
    have hb := blend_MIXMUX_bit hw (orcus_rgb_set_alpha hw r 15 s) r hw.COLOUR_KEY
      ((r - 1) * 2 + j) hCK (by omega)
    unfold bitOf at hb
    rw [hb, if_pos (by omega), Nat.add_sub_cancel_left]

/-- Witness of C5: region 2 on a machine whose registers hold 0 (alpha nibble
0 beforehand). -/
theorem rgbRegionBlendColourKey_alpha_max_witness :
    (2 ≤ 3 →
      fieldOf (REG16 (rgbRegionBlendColourKey sampleRegs 2 (constMachine 0 RgbFormat.RGB565))
        sampleRegs.MLC_STL_ALPHAL) (2 * 4) 4 = 15)
    ∧ (4 ≤ 2 →
      fieldOf (REG16 (rgbRegionBlendColourKey sampleRegs 2 (constMachine 0 RgbFormat.RGB565))
        sampleRegs.MLC_STL_ALPHAH) ((2 - 3) * 4) 4 = 15)
    ∧ fieldOf (REG16 (rgbRegionBlendColourKey sampleRegs 2 (constMachine 0 RgbFormat.RGB565))
        sampleRegs.MLC_STL_MIXMUX) ((2 - 1) * 2) 2 = sampleRegs.COLOUR_KEY :=
  rgbRegionBlendColourKey_alpha_max sampleRegs (constMachine 0 RgbFormat.RGB565) 2
    (by decide) (by decide) (by decide) (by decide) (by decide)

/-! ## Palette upload (`rgbSetPalette`) -/

theorem and_0xFFFF_mod (x : Nat) : (x &&& 0xFFFF) % 65536 = x &&& 0xFFFF :=
  Nat.mod_eq_of_lt (Nat.lt_succ_of_le Nat.and_le_right)

/-- The loop appends exactly `paletteLoopWrites` to the write log. -/
theorem rgbSetPaletteLoop_writes (hw : Gp2xRegs) (colours : Nat → Nat) (n : Nat) :
    ∀ s : Machine, (rgbSetPaletteLoop hw colours n s).writes
      = s.writes ++ paletteLoopWrites hw colours n := by
  induction n with
  | zero => intro s; simp [rgbSetPaletteLoop, paletteLoopWrites]
  | succ n ih =>
    intro s
    rw [rgbSetPaletteLoop, ih]
    simp [REG16_set, paletteLoopWrites, paletteWords, and_0xFFFF_mod]

theorem rgbSetPalette_writes (hw : Gp2xRegs) (colours : Nat → Nat) (count startIdx : Nat)
    (s : Machine) :
    (rgbSetPalette hw colours count startIdx s).writes
      = s.writes ++ (hw.MLC_STL_PALLT_A, (startIdx % 256) * 2)
          :: paletteLoopWrites hw colours count := by
  have h : (startIdx % 256) * 2 % 65536 = (startIdx % 256) * 2 := by omega
  rw [rgbSetPalette, rgbSetPaletteLoop_writes]
  simp [REG16_set, h]

/-- The palette after the loop's writes: the pointer has advanced by two per
colour, the half-words from the old pointer on hold the colours in the order
written (last index first), and the half-words below the old pointer are
kept. -/
theorem Palette.run_loopWrites (hw : Gp2xRegs) (colours : Nat → Nat)
    (hAD : hw.MLC_STL_PALLT_A ≠ hw.MLC_STL_PALLT_D) (n : Nat) :
    ∀ p : Palette,
      (Palette.run hw p (paletteLoopWrites hw colours n)).ptr = p.ptr + 2 * n
      ∧ (∀ j, j < n →
          (Palette.run hw p (paletteLoopWrites hw colours n)).mem (p.ptr + 2 * j)
            = (paletteWords (colours (n - 1 - j))).1
          ∧ (Palette.run hw p (paletteLoopWrites hw colours n)).mem (p.ptr + 2 * j + 1)
            = (paletteWords (colours (n - 1 - j))).2)
      ∧ (∀ a, a < p.ptr →
          (Palette.run hw p (paletteLoopWrites hw colours n)).mem a = p.mem a) := by
  induction n with
  | zero =>
    intro p
    simp [paletteLoopWrites, Palette.run]
  | succ n ih =>
    intro p
    have hstep : Palette.run hw p (paletteLoopWrites hw colours (n + 1))
        = Palette.run hw
            { ptr := p.ptr + 2,
              mem := Function.update (Function.update p.mem p.ptr (paletteWords (colours n)).1)
                (p.ptr + 1) (paletteWords (colours n)).2 }
            (paletteLoopWrites hw colours n) := by
      simp [paletteLoopWrites, Palette.run, Palette.write, hAD.symm, Nat.add_assoc]
    rw [hstep]
    obtain ⟨h1, h2, h3⟩ := ih
      { ptr := p.ptr + 2,
        mem := Function.update (Function.update p.mem p.ptr (paletteWords (colours n)).1)
          (p.ptr + 1) (paletteWords (colours n)).2 }
    refine ⟨?_, ?_, ?_⟩
    · rw [h1]; show p.ptr + 2 + 2 * n = p.ptr + 2 * (n + 1); omega
    · intro j hj
      cases j with
      | zero =>
        constructor
        · rw [h3 _ (by show p.ptr + 2 * 0 < p.ptr + 2; omega)]
          simp
        · rw [h3 _ (by show p.ptr + 2 * 0 + 1 < p.ptr + 2; omega)]
          simp
      | succ j =>
        have hj2 := h2 j (by omega)
        have e1 : p.ptr + 2 * (j + 1) = p.ptr + 2 + 2 * j := by omega
        have e2 : n + 1 - 1 - (j + 1) = n - 1 - j := by omega
        rw [e1, e2]
        exact hj2
    · intro a ha
      rw [h3 a (by show a < p.ptr + 2; omega)]
      have ha1 : a ≠ p.ptr + 1 := by omega
      have ha0 : a ≠ p.ptr := by omega
      simp [Function.update_noteq ha1, Function.update_noteq ha0]

/-- C6 (the code breaks the claim): the claim asks that after
`rgbSetPalette(colours, count, startIdx)` palette entry startIdx + i holds the
half-words of colours[i].  On the auto-incrementing palette,
`rgbSetPalette([c0,c1,c2], 3, 0)`, with all three entries inside the palette,
leaves entry 0 holding the half-words of c2 and entry 2 holding those of c0:
entries 0 and 2 do not hold the half-words of c0 and c2. -/
theorem rgbSetPalette_three_colours_reversed :
    0 + 3 ≤ 256
    ∧ (Palette.run sampleRegs emptyPalette
        (rgbSetPalette sampleRegs threeColours 3 0 (constMachine 0 RgbFormat.P8BPP)).writes).entry 0
      ≠ paletteWords (threeColours 0)
    ∧ (Palette.run sampleRegs emptyPalette
        (rgbSetPalette sampleRegs threeColours 3 0 (constMachine 0 RgbFormat.P8BPP)).writes).entry 2
      ≠ paletteWords (threeColours 2)
    ∧ (Palette.run sampleRegs emptyPalette
        (rgbSetPalette sampleRegs threeColours 3 0 (constMachine 0 RgbFormat.P8BPP)).writes).entry 0
      = paletteWords (threeColours 2)
    ∧ (Palette.run sampleRegs emptyPalette
        (rgbSetPalette sampleRegs threeColours 3 0 (constMachine 0 RgbFormat.P8BPP)).writes).entry 1
      = paletteWords (threeColours 1)
    ∧ (Palette.run sampleRegs emptyPalette
        (rgbSetPalette sampleRegs threeColours 3 0 (constMachine 0 RgbFormat.P8BPP)).writes).entry 2
      = paletteWords (threeColours 0) := by
  decide

/-- What the countdown loop does on the auto-incrementing palette: for every
colour array and every startIdx and count with startIdx + count within the
256 entries that the `uint8_t` start index addresses, after
`rgbSetPalette(colours, count, startIdx)` palette entry startIdx + i holds the
two half-words of colours[count-1-i], for every i < count. -/
theorem rgbSetPalette_entries (hw : Gp2xRegs) (s : Machine) (p : Palette)
    (colours : Nat → Nat) (count startIdx i : Nat)
    (hAD : hw.MLC_STL_PALLT_A ≠ hw.MLC_STL_PALLT_D) (hfit : startIdx + count ≤ 256)
    (hi : i < count) :
    (Palette.run hw p (rgbSetPalette hw colours count startIdx s).writes).entry (startIdx + i)
      = paletteWords (colours (count - 1 - i)) := by
  have hmod : startIdx % 256 = startIdx := Nat.mod_eq_of_lt (by omega)
  have hrun : Palette.run hw p (rgbSetPalette hw colours count startIdx s).writes
      = Palette.run hw { ptr := startIdx * 2, mem := (Palette.run hw p s.writes).mem }
          (paletteLoopWrites hw colours count) := by
    rw [rgbSetPalette_writes, hmod]
    simp [Palette.run, Palette.write, List.foldl_append]
  obtain ⟨_, h2, _⟩ := Palette.run_loopWrites hw colours hAD count
    { ptr := startIdx * 2, mem := (Palette.run hw p s.writes).mem }
  obtain ⟨ha, hb⟩ := h2 i hi
  have e1 : 2 * (startIdx + i) = startIdx * 2 + 2 * i := by omega
  rw [hrun]
  unfold Palette.entry
  rw [e1]
  exact Prod.ext ha hb

/-- An instance of `rgbSetPalette_entries`: three colours uploaded at index 4;
entry 4 + 0 holds the half-words of the last colour. -/
theorem rgbSetPalette_entries_witness :
    (Palette.run sampleRegs emptyPalette
        (rgbSetPalette sampleRegs threeColours 3 4 (constMachine 0 RgbFormat.P8BPP)).writes).entry
          (4 + 0)
      = paletteWords (threeColours (3 - 1 - 0)) :=
  rgbSetPalette_entries sampleRegs (constMachine 0 RgbFormat.P8BPP) emptyPalette threeColours 3 4 0
    (by decide) (by decide) (by decide)

/-! ## Scaling (`rgbSetScale`, `rgbSetPixelFormat`) -/

theorem u16_natCast (n : Nat) (h : n < 65536) : u16 (n : Int) = n := by
  unfold u16; omega

theorem u32_natCast (n : Nat) (h : n < 4294967296) : u32 (n : Int) = n := by
  unfold u32; omega

theorem i32_natCast (n : Nat) (h : n < 2147483648) : i32 (n : Int) = n := by
  unfold i32; omega

theorem specStride_le (f : RgbFormat) (w : Nat) (hW : w ≤ 1024) : specStride f w ≤ 3072 := by
  cases f <;> simp only [specStride] <;> omega

theorem specHScale_le (w : Nat) (hW : w ≤ 1024) : specHScale w ≤ 3276 := by
  unfold specHScale
  split <;> omega

theorem specVScale_le (f : RgbFormat) (w h : Nat) (hW : w ≤ 1024) (hH : h ≤ 1024) :
    specVScale f w h ≤ 13107 := by
  have hp : h * specStride f w ≤ 1024 * 3072 := Nat.mul_le_mul hH (specStride_le f w hW)
  unfold specVScale
  split <;> omega

/-- The stride that `rgbSetScale` computes is the spec's, for widths up to
1024. -/
theorem stride_eq (f : RgbFormat) (w : Nat) (hW : w ≤ 1024) :
    u16 (if f = RgbFormat.P4BPP then Int.tdiv (w : Int) 2
      else if f = RgbFormat.P8BPP then (w : Int)
      else if f = RgbFormat.RGB565 then i32 ((w : Int) * 2)
      else i32 ((w : Int) * 3)) = specStride f w := by
  cases f
  · have e : Int.tdiv (w : Int) 2 = ((w / 2 : Nat) : Int) := (Int.ofNat_tdiv w 2).symm
    simp only [if_true, e, specStride]
    exact u16_natCast _ (by omega)
  · simp only [if_true, specStride, reduceCtorEq, if_false]
    exact u16_natCast _ (by omega)
  · have e : (w : Int) * 2 = ((w * 2 : Nat) : Int) := by push_cast; rfl
    simp only [if_true, specStride, reduceCtorEq, if_false, e]
    rw [i32_natCast _ (by omega)]
    exact u16_natCast _ (by omega)
  · have e : (w : Int) * 3 = ((w * 3 : Nat) : Int) := by push_cast; rfl
    simp only [specStride, reduceCtorEq, if_false, e]
    rw [i32_natCast _ (by omega)]
    exact u16_natCast _ (by omega)

/-- The horizontal factor that `rgbSetScale` computes is the spec's, for
widths up to 1024. -/
theorem hScale_eq (w : Nat) (hW : w ≤ 1024) :
    u16 (if (w : Int) = 0 then 0 else Int.tdiv (i32 ((w : Int) * 1024)) 320) = specHScale w := by
  have hb := specHScale_le w hW
  unfold specHScale at hb ⊢
  by_cases h0 : w = 0
  · subst h0
    simp [u16]
  · have h0i : ¬ ((w : Int) = 0) := by omega
    have e : (w : Int) * 1024 = ((w * 1024 : Nat) : Int) := by push_cast; rfl
    rw [if_neg h0] at hb
    rw [if_neg h0, if_neg h0i, e, i32_natCast _ (by omega),
      show (320 : Int) = ((320 : Nat) : Int) from rfl, ← Int.ofNat_tdiv]
    exact u16_natCast _ (by omega)

/-- The vertical factor that `rgbSetScale` computes is the spec's, for sizes
up to 1024. -/
theorem vScale_eq (f : RgbFormat) (w h : Nat) (hW : w ≤ 1024) (hH : h ≤ 1024) :
    u32 (if (h : Int) = 0 then 0
      else Int.tdiv (i32 ((h : Int) * ((specStride f w : Nat) : Int))) 240) = specVScale f w h := by
  have hb := specVScale_le f w h hW hH
  have hp : h * specStride f w ≤ 1024 * 3072 := Nat.mul_le_mul hH (specStride_le f w hW)
  unfold specVScale at hb ⊢
  by_cases h0 : h = 0
  · subst h0
    simp [u32]
  · have h0i : ¬ ((h : Int) = 0) := by omega
    have e : (h : Int) * ((specStride f w : Nat) : Int) = ((h * specStride f w : Nat) : Int) := by
      push_cast; rfl
    rw [if_neg h0] at hb
    rw [if_neg h0, if_neg h0i, e, i32_natCast _ (by omega),
      show (240 : Int) = ((240 : Nat) : Int) from rfl, ← Int.ofNat_tdiv]
    exact u32_natCast _ (by omega)

/-- For source sizes up to 1024, `rgbSetScale` is four register writes of the
spec's values, the vertical factor fitting in its low half. -/
theorem rgbSetScale_eq (hw : Gp2xRegs) (s : Machine) (w h : Nat)
    (hW : w ≤ 1024) (hH : h ≤ 1024) :
    rgbSetScale hw (w : Int) (h : Int) s =
      REG16_set (REG16_set (REG16_set (REG16_set s
        hw.MLC_STL_HSC (specHScale w))
        hw.MLC_STL_VSCL (specVScale s.rgbFormat w h))
        hw.MLC_STL_VSCH 0)
        hw.MLC_STL_HW (specStride s.rgbFormat w) := by
  have hv := specVScale_le s.rgbFormat w h hW hH
  have hh := specHScale_le w hW
  have e1 : specHScale w &&& 0xFFFF = specHScale w := by
    rw [show (0xFFFF : Nat) = 2 ^ 16 - 1 by norm_num, Nat.and_pow_two_sub_one_eq_mod]
    exact Nat.mod_eq_of_lt (by omega)
  have e2 : specVScale s.rgbFormat w h &&& 0xFFFF = specVScale s.rgbFormat w h := by
    rw [show (0xFFFF : Nat) = 2 ^ 16 - 1 by norm_num, Nat.and_pow_two_sub_one_eq_mod]
    exact Nat.mod_eq_of_lt (by omega)
  have e3 : specVScale s.rgbFormat w h >>> 16 = 0 := by
    rw [Nat.shiftRight_eq_div_pow]
    exact Nat.div_eq_of_lt (by omega)
  unfold rgbSetScale
  simp only [stride_eq s.rgbFormat w hW, hScale_eq w hW, vScale_eq s.rgbFormat w h hW hH,
    e1, e2, e3]

theorem REG16_set_rgbFormat (s : Machine) (a v : Nat) :
    (REG16_set s a v).rgbFormat = s.rgbFormat := rfl

theorem REG16_set_writes (s : Machine) (a v : Nat) :
    (REG16_set s a v).writes = s.writes ++ [(a, v % 65536)] := rfl

/-- Content of the four scale registers after `rgbSetScale`, for source sizes
up to 1024 and pairwise distinct scale registers. -/
theorem rgbSetScale_regs (hw : Gp2xRegs) (s : Machine) (w h : Nat)
    (hW : w ≤ 1024) (hH : h ≤ 1024)
    (h1 : hw.MLC_STL_HSC ≠ hw.MLC_STL_VSCL) (h2 : hw.MLC_STL_HSC ≠ hw.MLC_STL_VSCH)
    (h3 : hw.MLC_STL_HSC ≠ hw.MLC_STL_HW) (h4 : hw.MLC_STL_VSCL ≠ hw.MLC_STL_VSCH)
    (h5 : hw.MLC_STL_VSCL ≠ hw.MLC_STL_HW) (h6 : hw.MLC_STL_VSCH ≠ hw.MLC_STL_HW) :
    REG16 (rgbSetScale hw (w : Int) (h : Int) s) hw.MLC_STL_HSC = specHScale w
    ∧ REG16 (rgbSetScale hw (w : Int) (h : Int) s) hw.MLC_STL_VSCL = specVScale s.rgbFormat w h
    ∧ REG16 (rgbSetScale hw (w : Int) (h : Int) s) hw.MLC_STL_VSCH = 0
    ∧ REG16 (rgbSetScale hw (w : Int) (h : Int) s) hw.MLC_STL_HW = specStride s.rgbFormat w := by
  have hv := specVScale_le s.rgbFormat w h hW hH
  have hh := specHScale_le w hW
  have hs := specStride_le s.rgbFormat w hW
  rw [rgbSetScale_eq hw s w h hW hH]
  refine ⟨?_, ?_, ?_, ?_⟩
  · rw [REG16_set_other _ _ h3, REG16_set_other _ _ h2, REG16_set_other _ _ h1, REG16_set_same]
    exact Nat.mod_eq_of_lt (by omega)
  · rw [REG16_set_other _ _ h5, REG16_set_other _ _ h4, REG16_set_same]
    exact Nat.mod_eq_of_lt (by omega)
  · rw [REG16_set_other _ _ h6, REG16_set_same]
  · rw [REG16_set_same]
    exact Nat.mod_eq_of_lt (by omega)

theorem specStride_320 (f : RgbFormat) : specStride f 320 = defaultStride f := by
  cases f <;> rfl

theorem specVScale_320_240 (f : RgbFormat) : specVScale f 320 240 = defaultStride f := by
  cases f <;> rfl

/-- Content of the four scale registers after `rgbSetPixelFormat`. -/
theorem rgbSetPixelFormat_scale_regs (hw : Gp2xRegs) (s : Machine) (f : RgbFormat)
    (h1 : hw.MLC_STL_HSC ≠ hw.MLC_STL_VSCL) (h2 : hw.MLC_STL_HSC ≠ hw.MLC_STL_VSCH)
    (h3 : hw.MLC_STL_HSC ≠ hw.MLC_STL_HW) (h4 : hw.MLC_STL_VSCL ≠ hw.MLC_STL_VSCH)
    (h5 : hw.MLC_STL_VSCL ≠ hw.MLC_STL_HW) (h6 : hw.MLC_STL_VSCH ≠ hw.MLC_STL_HW) :
    REG16 (rgbSetPixelFormat hw f s) hw.MLC_STL_HSC = 1024
    ∧ REG16 (rgbSetPixelFormat hw f s) hw.MLC_STL_VSCL = defaultStride f
    ∧ REG16 (rgbSetPixelFormat hw f s) hw.MLC_STL_VSCH = 0
    ∧ REG16 (rgbSetPixelFormat hw f s) hw.MLC_STL_HW = defaultStride f := by
  unfold rgbSetPixelFormat
  have h := rgbSetScale_regs hw
    (REG16_set
      (REG16_set { s with rgbFormat := f } hw.MLC_STL_CNTL
        (REG16 { s with rgbFormat := f } hw.MLC_STL_CNTL &&& not32 (hw.MLC_STL_BPP 3)))
      hw.MLC_STL_CNTL
      (REG16
        (REG16_set { s with rgbFormat := f } hw.MLC_STL_CNTL
          (REG16 { s with rgbFormat := f } hw.MLC_STL_CNTL &&& not32 (hw.MLC_STL_BPP 3)))
        hw.MLC_STL_CNTL ||| hw.MLC_STL_BPP (hw.formatValue f)))
    320 240 (by norm_num) (by norm_num) h1 h2 h3 h4 h5 h6
  simp only [REG16_set_rgbFormat, specStride_320, specVScale_320_240] at h
  exact h

/-- C7: with the cached pixel format equal to RGB565, `rgbSetScale(320, 240)`
writes 1024 to MLC_STL_HSC and 640 to MLC_STL_HW (and 640, 0 to the two halves
of the vertical factor); and for every pixel format, `rgbSetScale(0, 0)`
writes 0 to MLC_STL_HSC, MLC_STL_VSCL and MLC_STL_VSCH (and to MLC_STL_HW). -/
theorem rgbSetScale_examples (hw : Gp2xRegs) (s : Machine) :
    (rgbSetScale hw 320 240 { s with rgbFormat := RgbFormat.RGB565 }).writes
      = s.writes ++ [(hw.MLC_STL_HSC, 1024), (hw.MLC_STL_VSCL, 640), (hw.MLC_STL_VSCH, 0),
          (hw.MLC_STL_HW, 640)]
    ∧ (rgbSetScale hw 0 0 s).writes
      = s.writes ++ [(hw.MLC_STL_HSC, 0), (hw.MLC_STL_VSCL, 0), (hw.MLC_STL_VSCH, 0),
          (hw.MLC_STL_HW, 0)] := by
  constructor
  · have h := rgbSetScale_eq hw { s with rgbFormat := RgbFormat.RGB565 } 320 240
      (by norm_num) (by norm_num)
    simp only [Nat.cast_ofNat] at h
    rw [h]
    simp [REG16_set_writes, specHScale, specVScale, specStride]
  · have h := rgbSetScale_eq hw s 0 0 (by norm_num) (by norm_num)
    have hz : specStride s.rgbFormat 0 = 0 := by
      cases s.rgbFormat <;> rfl
    simp only [Nat.cast_zero] at h
    rw [h]
    simp [REG16_set_writes, specHScale, specVScale, hz]

/-- C8: for every pixel format and all srcW, srcH in 0..1024,
`rgbSetScale(srcW, srcH)` writes the spec's horizontal factor
(srcW*1024)/320 (0 when srcW = 0) to MLC_STL_HSC, the low 16 bits and the
high bits of the spec's vertical factor v = (srcH*stride)/240 (0 when
srcH = 0) to MLC_STL_VSCL and MLC_STL_VSCH, so that the two halves recompose
v, and the spec's stride (srcW/2, srcW, srcW*2 or srcW*3) to MLC_STL_HW, none
of the values being truncated by the 16-bit store. -/
theorem rgbSetScale_spec (hw : Gp2xRegs) (s : Machine) (srcW srcH : Nat)
    (hW : srcW ≤ 1024) (hH : srcH ≤ 1024) :
    (rgbSetScale hw (srcW : Int) (srcH : Int) s).writes
      = s.writes ++ [(hw.MLC_STL_HSC, specHScale srcW),
          (hw.MLC_STL_VSCL, specVScale s.rgbFormat srcW srcH % 65536),
          (hw.MLC_STL_VSCH, specVScale s.rgbFormat srcW srcH / 65536),
          (hw.MLC_STL_HW, specStride s.rgbFormat srcW)]
    ∧ specVScale s.rgbFormat srcW srcH % 65536
        + 65536 * (specVScale s.rgbFormat srcW srcH / 65536)
      = specVScale s.rgbFormat srcW srcH := by
  have hv := specVScale_le s.rgbFormat srcW srcH hW hH
  have hh := specHScale_le srcW hW
  have hs := specStride_le s.rgbFormat srcW hW
  have e1 : specHScale srcW % 65536 = specHScale srcW := Nat.mod_eq_of_lt (by omega)
  have e2 : specVScale s.rgbFormat srcW srcH % 65536 = specVScale s.rgbFormat srcW srcH :=
    Nat.mod_eq_of_lt (by omega)
  have e3 : specVScale s.rgbFormat srcW srcH / 65536 = 0 := Nat.div_eq_of_lt (by omega)
  have e4 : specStride s.rgbFormat srcW % 65536 = specStride s.rgbFormat srcW :=
    Nat.mod_eq_of_lt (by omega)
  constructor
  · rw [rgbSetScale_eq hw s srcW srcH hW hH]
    simp [REG16_set_writes, e1, e2, e3, e4]
  · exact Nat.mod_add_div _ _

/-- Witness of C8: a 640 x 480 source in RGB888. -/
theorem rgbSetScale_spec_witness :
    (rgbSetScale sampleRegs ((640 : Nat) : Int) ((480 : Nat) : Int)
        (constMachine 0 RgbFormat.RGB888)).writes
      = (constMachine 0 RgbFormat.RGB888).writes ++ [(sampleRegs.MLC_STL_HSC, specHScale 640),
          (sampleRegs.MLC_STL_VSCL, specVScale (constMachine 0 RgbFormat.RGB888).rgbFormat 640 480 % 65536),
          (sampleRegs.MLC_STL_VSCH, specVScale (constMachine 0 RgbFormat.RGB888).rgbFormat 640 480 / 65536),
          (sampleRegs.MLC_STL_HW, specStride (constMachine 0 RgbFormat.RGB888).rgbFormat 640)]
    ∧ specVScale (constMachine 0 RgbFormat.RGB888).rgbFormat 640 480 % 65536
        + 65536 * (specVScale (constMachine 0 RgbFormat.RGB888).rgbFormat 640 480 / 65536)
      = specVScale (constMachine 0 RgbFormat.RGB888).rgbFormat 640 480 :=
  rgbSetScale_spec sampleRegs (constMachine 0 RgbFormat.RGB888) 640 480 (by decide) (by decide)

/-- C9: for every register state, every pixel format f and all srcW, srcH in
0..1024, `rgbSetScale(srcW, srcH)` followed by `rgbSetPixelFormat(f)` leaves
the four scale registers exactly as `rgbSetPixelFormat(f)` alone does:
MLC_STL_HSC = 1024, MLC_STL_HW = the stride of f for width 320 (160, 320, 640
or 960), MLC_STL_VSCL = that same stride and MLC_STL_VSCH = 0. -/
theorem rgbSetPixelFormat_resets_scale (hw : Gp2xRegs) (s : Machine) (f : RgbFormat)
    (srcW srcH : Nat) (hW : srcW ≤ 1024) (hH : srcH ≤ 1024)
    (h1 : hw.MLC_STL_HSC ≠ hw.MLC_STL_VSCL) (h2 : hw.MLC_STL_HSC ≠ hw.MLC_STL_VSCH)
    (h3 : hw.MLC_STL_HSC ≠ hw.MLC_STL_HW) (h4 : hw.MLC_STL_VSCL ≠ hw.MLC_STL_VSCH)
    (h5 : hw.MLC_STL_VSCL ≠ hw.MLC_STL_HW) (h6 : hw.MLC_STL_VSCH ≠ hw.MLC_STL_HW) :
    scaleRegs hw (rgbSetPixelFormat hw f (rgbSetScale hw (srcW : Int) (srcH : Int) s))
      = scaleRegs hw (rgbSetPixelFormat hw f s)
    ∧ scaleRegs hw (rgbSetPixelFormat hw f (rgbSetScale hw (srcW : Int) (srcH : Int) s))
      = (1024, defaultStride f, defaultStride f, 0) := by
  have _hW := hW
  have _hH := hH
  obtain ⟨a1, a2, a3, a4⟩ := rgbSetPixelFormat_scale_regs hw
    (rgbSetScale hw (srcW : Int) (srcH : Int) s) f h1 h2 h3 h4 h5 h6
  obtain ⟨b1, b2, b3, b4⟩ := rgbSetPixelFormat_scale_regs hw s f h1 h2 h3 h4 h5 h6
  unfold scaleRegs
  rw [a1, a2, a3, a4, b1, b2, b3, b4]
  exact ⟨rfl, rfl⟩

/-- Witness of C9: a custom 640 x 480 scale under RGB888, then a switch to
8-bit palettised. -/
theorem rgbSetPixelFormat_resets_scale_witness :
    scaleRegs sampleRegs (rgbSetPixelFormat sampleRegs RgbFormat.P8BPP
        (rgbSetScale sampleRegs ((640 : Nat) : Int) ((480 : Nat) : Int)
          (constMachine 0 RgbFormat.RGB888)))
      = scaleRegs sampleRegs (rgbSetPixelFormat sampleRegs RgbFormat.P8BPP
          (constMachine 0 RgbFormat.RGB888))
    ∧ scaleRegs sampleRegs (rgbSetPixelFormat sampleRegs RgbFormat.P8BPP
        (rgbSetScale sampleRegs ((640 : Nat) : Int) ((480 : Nat) : Int)
          (constMachine 0 RgbFormat.RGB888)))
      = (1024, defaultStride RgbFormat.P8BPP, defaultStride RgbFormat.P8BPP, 0) :=
  rgbSetPixelFormat_resets_scale sampleRegs (constMachine 0 RgbFormat.RGB888) RgbFormat.P8BPP
    640 480 (by decide) (by decide) (by decide) (by decide) (by decide) (by decide) (by decide)
    (by decide)

/-- C10: for every register state and all x, y, width, height,
`rgbSetRegionPosition(5, x, y, width, height)` on the fixed region is a no-op:
the machine (every register, the cached format and the write log) is the same
after the call as before it. -/
theorem rgbSetRegionPosition_fixed_region (hw : Gp2xRegs) (s : Machine)
    (x y width height : Int) :
    rgbSetRegionPosition hw 5 x y width height s = s := by
  simp [rgbSetRegionPosition]

/-! ## Region geometry (`rgbSetRegionPosition`) -/

theorem u16_lt (x : Int) : u16 x < 65536 := by
  unfold u16; omega

theorem u16_mod (x : Int) : u16 x % 65536 = u16 x :=
  Nat.mod_eq_of_lt (u16_lt x)

theorem newWrites_append (s s' : Machine) (ws : List (Nat × Nat))
    (h : s'.writes = s.writes ++ ws) : newWrites s s' = ws := by
  unfold newWrites
  rw [h, List.drop_left]

/-- For a movable region, `rgbSetRegionPosition` is four register writes at
the region's base offset. -/
theorem rgbSetRegionPosition_eq (hw : Gp2xRegs) (s : Machine) (r : Nat)
    (x y width height : Int) (hr1 : 1 ≤ r) (hr4 : r ≤ 4)
    (hfit : hw.MLC_STLn_STX + 24 < 65536) :
    rgbSetRegionPosition hw r x y width height s =
      REG16_set (REG16_set (REG16_set (REG16_set s
        (hw.MLC_STLn_STX + (r - 1) * 8) (u16 x))
        (hw.MLC_STLn_STX + (r - 1) * 8 + 2) (u16 (x + width - 1)))
        (hw.MLC_STLn_STX + (r - 1) * 8 + 4) (u16 y))
        (hw.MLC_STLn_STX + (r - 1) * 8 + 6) (u16 (y + height - 1)) := by
  have hb : u16 ((hw.MLC_STLn_STX : Int) + ((r : Int) - 1) * 8)
      = hw.MLC_STLn_STX + (r - 1) * 8 := by
    unfold u16; omega
  have h5 : r < 5 := by omega
  unfold rgbSetRegionPosition
  simp only [if_pos h5, hb]

/-- C11: for every register state, every region r in 1..4 and all x, y,
width, height, `rgbSetRegionPosition(r, x, y, width, height)` writes x,
x+width-1, y and y+height-1, each modulo 2^16, to the four half-word registers
at MLC_STLn_STX + (r-1)*8 + 0, 2, 4, 6 (a register offset fits in 16 bits),
and changes no other register; in particular the geometry registers of every
other region r' != r are unchanged. -/
theorem rgbSetRegionPosition_geometry (hw : Gp2xRegs) (s : Machine) (r : Nat)
    (x y width height : Int) (hr1 : 1 ≤ r) (hr4 : r ≤ 4)
    (hfit : hw.MLC_STLn_STX + 24 < 65536) :
    newWrites s (rgbSetRegionPosition hw r x y width height s)
      = [(hw.MLC_STLn_STX + (r - 1) * 8, u16 x),
          (hw.MLC_STLn_STX + (r - 1) * 8 + 2, u16 (x + width - 1)),
          (hw.MLC_STLn_STX + (r - 1) * 8 + 4, u16 y),
          (hw.MLC_STLn_STX + (r - 1) * 8 + 6, u16 (y + height - 1))]
    ∧ REG16 (rgbSetRegionPosition hw r x y width height s) (hw.MLC_STLn_STX + (r - 1) * 8)
      = u16 x
    ∧ REG16 (rgbSetRegionPosition hw r x y width height s) (hw.MLC_STLn_STX + (r - 1) * 8 + 2)
      = u16 (x + width - 1)
    ∧ REG16 (rgbSetRegionPosition hw r x y width height s) (hw.MLC_STLn_STX + (r - 1) * 8 + 4)
      = u16 y
    ∧ REG16 (rgbSetRegionPosition hw r x y width height s) (hw.MLC_STLn_STX + (r - 1) * 8 + 6)
      = u16 (y + height - 1)
    ∧ (∀ a, a ≠ hw.MLC_STLn_STX + (r - 1) * 8 → a ≠ hw.MLC_STLn_STX + (r - 1) * 8 + 2 →
        a ≠ hw.MLC_STLn_STX + (r - 1) * 8 + 4 → a ≠ hw.MLC_STLn_STX + (r - 1) * 8 + 6 →
        REG16 (rgbSetRegionPosition hw r x y width height s) a = REG16 s a)
    ∧ (∀ r' k, 1 ≤ r' → r' ≤ 4 → r' ≠ r → k < 8 →
        REG16 (rgbSetRegionPosition hw r x y width height s)
            (hw.MLC_STLn_STX + (r' - 1) * 8 + k)
          = REG16 s (hw.MLC_STLn_STX + (r' - 1) * 8 + k)) := by
  have hother : ∀ a, a ≠ hw.MLC_STLn_STX + (r - 1) * 8 →
      a ≠ hw.MLC_STLn_STX + (r - 1) * 8 + 2 →
      a ≠ hw.MLC_STLn_STX + (r - 1) * 8 + 4 → a ≠ hw.MLC_STLn_STX + (r - 1) * 8 + 6 →
      REG16 (rgbSetRegionPosition hw r x y width height s) a = REG16 s a := by
    intro a h0 h2 h4 h6
    rw [rgbSetRegionPosition_eq hw s r x y width height hr1 hr4 hfit,
      REG16_set_other _ _ h6, REG16_set_other _ _ h4, REG16_set_other _ _ h2,
      REG16_set_other _ _ h0]
  refine ⟨?_, ?_, ?_, ?_, ?_, hother, ?_⟩
  · apply newWrites_append
    rw [rgbSetRegionPosition_eq hw s r x y width height hr1 hr4 hfit]
    simp [REG16_set_writes, u16_mod]
  · rw [rgbSetRegionPosition_eq hw s r x y width height hr1 hr4 hfit,
      REG16_set_other _ _ (by omega), REG16_set_other _ _ (by omega),
      REG16_set_other _ _ (by omega), REG16_set_same, u16_mod]
  · rw [rgbSetRegionPosition_eq hw s r x y width height hr1 hr4 hfit,
      REG16_set_other _ _ (by omega), REG16_set_other _ _ (by omega), REG16_set_same, u16_mod]
  · rw [rgbSetRegionPosition_eq hw s r x y width height hr1 hr4 hfit,
      REG16_set_other _ _ (by omega), REG16_set_same, u16_mod]
  · rw [rgbSetRegionPosition_eq hw s r x y width height hr1 hr4 hfit, REG16_set_same, u16_mod]
  · intro r' k h1 h4 hne hk
    exact hother _ (by omega) (by omega) (by omega) (by omega)

/-- Witness of C11: region 2 placed at x = -1, y = 20 with size 320 x 50 on a
machine whose registers hold 0. -/
theorem rgbSetRegionPosition_geometry_witness :
    newWrites (constMachine 0 RgbFormat.RGB565)
        (rgbSetRegionPosition sampleRegs 2 (-1) 20 320 50
          (constMachine 0 RgbFormat.RGB565))
      = [(sampleRegs.MLC_STLn_STX + (2 - 1) * 8, u16 (-1)),
          (sampleRegs.MLC_STLn_STX + (2 - 1) * 8 + 2, u16 (-1 + 320 - 1)),
          (sampleRegs.MLC_STLn_STX + (2 - 1) * 8 + 4, u16 20),
          (sampleRegs.MLC_STLn_STX + (2 - 1) * 8 + 6, u16 (20 + 50 - 1))]
    ∧ REG16
        (rgbSetRegionPosition sampleRegs 2 (-1) 20 320 50
          (constMachine 0 RgbFormat.RGB565))
        (sampleRegs.MLC_STLn_STX + (2 - 1) * 8) = u16 (-1)
    ∧ REG16
        (rgbSetRegionPosition sampleRegs 2 (-1) 20 320 50
          (constMachine 0 RgbFormat.RGB565))
        (sampleRegs.MLC_STLn_STX + (2 - 1) * 8 + 2) = u16 (-1 + 320 - 1)
    ∧ REG16
        (rgbSetRegionPosition sampleRegs 2 (-1) 20 320 50
          (constMachine 0 RgbFormat.RGB565))
        (sampleRegs.MLC_STLn_STX + (2 - 1) * 8 + 4) = u16 20
    ∧ REG16
        (rgbSetRegionPosition sampleRegs 2 (-1) 20 320 50
          (constMachine 0 RgbFormat.RGB565))
        (sampleRegs.MLC_STLn_STX + (2 - 1) * 8 + 6) = u16 (20 + 50 - 1)
    ∧ (∀ a, a ≠ sampleRegs.MLC_STLn_STX + (2 - 1) * 8 →
        a ≠ sampleRegs.MLC_STLn_STX + (2 - 1) * 8 + 2 →
        a ≠ sampleRegs.MLC_STLn_STX + (2 - 1) * 8 + 4 →
        a ≠ sampleRegs.MLC_STLn_STX + (2 - 1) * 8 + 6 →
        REG16
            (rgbSetRegionPosition sampleRegs 2 (-1) 20 320 50
          (constMachine 0 RgbFormat.RGB565)) a
          = REG16 (constMachine 0 RgbFormat.RGB565) a)
    ∧ (∀ r' k, 1 ≤ r' → r' ≤ 4 → r' ≠ 2 → k < 8 →
        REG16
            (rgbSetRegionPosition sampleRegs 2 (-1) 20 320 50
          (constMachine 0 RgbFormat.RGB565))
            (sampleRegs.MLC_STLn_STX + (r' - 1) * 8 + k)
          = REG16 (constMachine 0 RgbFormat.RGB565)
              (sampleRegs.MLC_STLn_STX + (r' - 1) * 8 + k)) :=
  rgbSetRegionPosition_geometry sampleRegs (constMachine 0 RgbFormat.RGB565) 2 (-1) 20 320 50
    (by decide) (by decide) (by decide)

/-! ## Sync polling (`lcdWaitNextVSync`, `lcdWaitNextHSync`) -/

theorem and_BIT_ne_zero (x n : Nat) : ((x &&& BIT n) != 0) = x.testBit n := by
  unfold BIT
  rw [Nat.one_shiftLeft, Nat.and_two_pow]
  cases h : x.testBit n
  · simp
  · have hp : 0 < 2 ^ n := Nat.pow_pos (by norm_num)
    have hne : 2 ^ n ≠ 0 := by omega
    simp [hne]

theorem pollBit_fst (n : Nat) (p : PinReader) :
    (pollBit n p).1 = bitOf (p.samples p.pos % 65536) n := by
  unfold pollBit bitOf
  exact and_BIT_ne_zero _ _

theorem pollBit_snd (n : Nat) (p : PinReader) :
    (pollBit n p).2 = { p with pos := p.pos + 1 } := rfl

theorem lcdVSync_eq : lcdVSync = pollBit 4 := rfl

theorem lcdHSync_eq : lcdHSync = pollBit 5 := rfl

/-- When a polling loop exits, the last sample it read has the level that
ends the loop and every sample it read before has the level that continues
it. -/
theorem pollWhile_some (n : Nat) (cont : Bool) (fuel : Nat) :
    ∀ p q : PinReader, pollWhile (pollBit n) cont fuel p = some q →
      q.samples = p.samples ∧ p.pos < q.pos
      ∧ bitOf (p.samples (q.pos - 1) % 65536) n = !cont
      ∧ ∀ k, p.pos ≤ k → k + 1 < q.pos → bitOf (p.samples k % 65536) n = cont := by
  induction fuel with
  | zero => intro p q h; simp [pollWhile] at h
  | succ fuel ih =>
    intro p q h
    rw [pollWhile, pollBit_fst, pollBit_snd] at h
    by_cases hc : bitOf (p.samples p.pos % 65536) n = cont
    · rw [if_pos hc] at h
      obtain ⟨h1, h2, h3, h4⟩ := ih _ q h
      simp only at h1 h2 h3 h4
      refine ⟨h1, by omega, h3, ?_⟩
      intro k hk hkq
      by_cases hk0 : k = p.pos
      · rw [hk0]; exact hc
      · exact h4 k (by omega) hkq
    · rw [if_neg hc] at h
      have hq : q = { p with pos := p.pos + 1 } := (Option.some.inj h).symm
      subst hq
      refine ⟨rfl, by simp, ?_, ?_⟩
      · simp only [Nat.add_sub_cancel]
        cases hb : bitOf (p.samples p.pos % 65536) n <;> cases cont <;> simp_all
      · intro k hk hkq
        simp only at hkq
        omega

/-- A polling loop exits as soon as the fuel covers the first sample with
the level that ends it. -/
theorem pollWhile_returns (n : Nat) (cont : Bool) (d : Nat) :
    ∀ (p : PinReader) (fuel : Nat), d < fuel →
      bitOf (p.samples (p.pos + d) % 65536) n = (!cont) →
      ∃ q, pollWhile (pollBit n) cont fuel p = some q ∧ q.pos ≤ p.pos + d + 1 := by
  induction d with
  | zero =>
    intro p fuel hf hb
    obtain ⟨f, rfl⟩ : ∃ f, fuel = f + 1 := ⟨fuel - 1, by omega⟩
    have hc : ¬ bitOf (p.samples p.pos % 65536) n = cont := by
      rw [Nat.add_zero] at hb
      rw [hb]; cases cont <;> simp
    refine ⟨{ p with pos := p.pos + 1 }, ?_, by simp⟩
    rw [pollWhile, pollBit_fst, pollBit_snd, if_neg hc]
  | succ d ih =>
    intro p fuel hf hb
    obtain ⟨f, rfl⟩ : ∃ f, fuel = f + 1 := ⟨fuel - 1, by omega⟩
    rw [pollWhile, pollBit_fst, pollBit_snd]
    by_cases hc : bitOf (p.samples p.pos % 65536) n = cont
    · rw [if_pos hc]
      have hb2 : bitOf (p.samples (p.pos + 1 + d) % 65536) n = (!cont) := by
        rw [show p.pos + 1 + d = p.pos + (d + 1) by omega]; exact hb
      obtain ⟨q, hq, hle⟩ := ih { p with pos := p.pos + 1 } f (by omega) hb2
      exact ⟨q, hq, by simp only at hle; omega⟩
    · rw [if_neg hc]
      exact ⟨{ p with pos := p.pos + 1 }, rfl, by simp⟩

/-- The two loops of a wait-for-next-edge on bit `n`: on return the last two
samples read are low then high. -/
theorem waitNext_edge (n fuel : Nat) (p q : PinReader)
    (h : (match pollWhile (pollBit n) true fuel p with
      | none => none
      | some r => pollWhile (pollBit n) false fuel r) = some q) :
    q.samples = p.samples ∧ p.pos + 2 ≤ q.pos
    ∧ bitOf (p.samples (q.pos - 1) % 65536) n = true
    ∧ bitOf (p.samples (q.pos - 2) % 65536) n = false := by
  cases h1 : pollWhile (pollBit n) true fuel p with
  | none => rw [h1] at h; simp at h
  | some r =>
    rw [h1] at h
    simp only at h
    obtain ⟨a1, a2, a3, _⟩ := pollWhile_some n true fuel p r h1
    obtain ⟨b1, b2, b3, b4⟩ := pollWhile_some n false fuel r q h
    rw [a1] at b1 b3 b4
    refine ⟨b1, by omega, by simpa using b3, ?_⟩
    by_cases hk : r.pos ≤ q.pos - 2
    · exact b4 (q.pos - 2) hk (by omega)
    · have e : q.pos - 2 = r.pos - 1 := by omega
      rw [e]
      simpa using a3

/-- The two loops of a wait-for-next-edge on bit `n` return when the stream
has a low sample followed, later, by a high one, and the fuel covers both. -/
theorem waitNext_returns (n fuel i j : Nat) (p : PinReader) (hij : i < j) (hf : j < fuel)
    (hlow : bitOf (p.samples (p.pos + i) % 65536) n = false)
    (hhigh : bitOf (p.samples (p.pos + j) % 65536) n = true) :
    ∃ q, (match pollWhile (pollBit n) true fuel p with
      | none => none
      | some r => pollWhile (pollBit n) false fuel r) = some q := by
  obtain ⟨r, hr, hle⟩ := pollWhile_returns n true i p fuel (by omega) (by simpa using hlow)
  obtain ⟨hs, hlt, _, _⟩ := pollWhile_some n true fuel p r hr
  have hb : bitOf (r.samples (r.pos + (p.pos + j - r.pos)) % 65536) n = (!false) := by
    rw [hs, show r.pos + (p.pos + j - r.pos) = p.pos + j by omega]
    simpa using hhigh
  obtain ⟨q, hq, _⟩ := pollWhile_returns n false (p.pos + j - r.pos) r fuel (by omega) hb
  exact ⟨q, by rw [hr]; exact hq⟩

/-- Both waits return on every stream that goes low and later high, given
enough fuel. -/
theorem lcdWaitNext_returns (fuel i j : Nat) (p : PinReader) (hij : i < j) (hf : j < fuel) :
    (bitOf (p.samples (p.pos + i) % 65536) 4 = false →
      bitOf (p.samples (p.pos + j) % 65536) 4 = true →
      ∃ q, lcdWaitNextVSync fuel p = some q)
    ∧ (bitOf (p.samples (p.pos + i) % 65536) 5 = false →
      bitOf (p.samples (p.pos + j) % 65536) 5 = true →
      ∃ q, lcdWaitNextHSync fuel p = some q) := by
  constructor
  · intro hl hh
    unfold lcdWaitNextVSync
    rw [lcdVSync_eq]
    exact waitNext_returns 4 fuel i j p hij hf hl hh
  · intro hl hh
    unfold lcdWaitNextHSync
    rw [lcdHSync_eq]
    exact waitNext_returns 5 fuel i j p hij hf hl hh

/-- C12: with the successive reads of GPIOBPINLVL modelled as a stream of
samples, whenever `lcdWaitNextVSync` returns (also when the first sample it
reads already has bit 4 set) it has read at least two samples, the last sample
it read has bit 4 set and the sample it read immediately before has bit 4
clear; `lcdWaitNextHSync` satisfies the same statement with bit 5. -/
theorem lcdWaitNext_observes_edge (fuelV fuelH : Nat) (pV qV pH qH : PinReader)
    (hV : lcdWaitNextVSync fuelV pV = some qV) (hH : lcdWaitNextHSync fuelH pH = some qH) :
    (qV.samples = pV.samples ∧ pV.pos + 2 ≤ qV.pos
      ∧ bitOf (pV.samples (qV.pos - 1) % 65536) 4 = true
      ∧ bitOf (pV.samples (qV.pos - 2) % 65536) 4 = false)
    ∧ (qH.samples = pH.samples ∧ pH.pos + 2 ≤ qH.pos
      ∧ bitOf (pH.samples (qH.pos - 1) % 65536) 5 = true
      ∧ bitOf (pH.samples (qH.pos - 2) % 65536) 5 = false) := by
  constructor
  · unfold lcdWaitNextVSync at hV
    rw [lcdVSync_eq] at hV
    exact waitNext_edge 4 fuelV pV qV hV
  · unfold lcdWaitNextHSync at hH
    rw [lcdHSync_eq] at hH
    exact waitNext_edge 5 fuelH pH qH hH

/-- Witness of C12: on a stream whose first sample is already high, both
waits return after six reads, the last two being low then high. -/
theorem lcdWaitNext_observes_edge_witness :
    bitOf (pulseSamples 0 % 65536) 4 = true
    ∧ lcdWaitNextVSync 10 { samples := pulseSamples, pos := 0 }
      = some { samples := pulseSamples, pos := 6 }
    ∧ lcdWaitNextHSync 10 { samples := pulseSamples, pos := 0 }
      = some { samples := pulseSamples, pos := 6 }
    ∧ (pulseSamples = pulseSamples ∧ 0 + 2 ≤ 6
      ∧ bitOf (pulseSamples (6 - 1) % 65536) 4 = true
      ∧ bitOf (pulseSamples (6 - 2) % 65536) 4 = false)
    ∧ (pulseSamples = pulseSamples ∧ 0 + 2 ≤ 6
      ∧ bitOf (pulseSamples (6 - 1) % 65536) 5 = true
      ∧ bitOf (pulseSamples (6 - 2) % 65536) 5 = false) :=
  ⟨by decide, rfl, rfl,
    lcdWaitNext_observes_edge 10 10 { samples := pulseSamples, pos := 0 }
      { samples := pulseSamples, pos := 6 } { samples := pulseSamples, pos := 0 }
      { samples := pulseSamples, pos := 6 } rfl rfl⟩

/-! ## Blend mode selection (`orcus_rgb_blend`, `rgbRegionNoBlend`) -/

theorem blend_rgbFormat (hw : Gp2xRegs) (s : Machine) (r mode : Nat) :
    (orcus_rgb_blend hw r mode s).rgbFormat = s.rgbFormat := rfl

theorem blend_alphaNibble (hw : Gp2xRegs) (s : Machine) (r mode r' : Nat)
    (hLM : hw.MLC_STL_ALPHAL ≠ hw.MLC_STL_MIXMUX)
    (hHM : hw.MLC_STL_ALPHAH ≠ hw.MLC_STL_MIXMUX) :
    alphaNibble hw (orcus_rgb_blend hw r mode s) r' = alphaNibble hw s r' := by
  unfold alphaNibble
  rw [blend_other hw s r mode _ hLM, blend_other hw s r mode _ hHM]

/-- After `orcus_rgb_set_alpha(r, a)` the alpha nibble of region `r` holds
`a & 0xF`. -/
theorem set_alpha_alphaNibble_same (hw : Gp2xRegs) (s : Machine) (r a : Nat)
    (hr1 : 1 ≤ r) (hr5 : r ≤ 5) :
    alphaNibble hw (orcus_rgb_set_alpha hw r a s) r = a &&& 0xF := by
  have _h := hr1
  unfold alphaNibble
  by_cases h3 : r ≤ 3
  · rw [if_pos h3]
    apply fieldOf_eq _ _ _ _ (and_0xF_lt a)
    intro j hj
    have hb := set_alpha_ALPHAL_bit hw s r a (r * 4 + j) h3 (by omega)
    unfold bitOf at hb
    rw [hb, if_pos (by omega), Nat.add_sub_cancel_left]
  · rw [if_neg h3]
    apply fieldOf_eq _ _ _ _ (and_0xF_lt a)
    intro j hj
    have hb := set_alpha_ALPHAH_bit hw s r a ((r - 3) * 4 + j) (by omega) (by omega)
    unfold bitOf at hb
    rw [hb, if_pos (by omega), Nat.add_sub_cancel_left]

/-- `orcus_rgb_set_alpha(r, a)` keeps the alpha nibble of every other
region. -/
theorem set_alpha_alphaNibble_other (hw : Gp2xRegs) (s : Machine) (r a r' : Nat)
    (hr1 : 1 ≤ r) (hr5 : r ≤ 5) (hr1' : 1 ≤ r') (hr5' : r' ≤ 5) (hne : r' ≠ r)
    (hLH : hw.MLC_STL_ALPHAL ≠ hw.MLC_STL_ALPHAH) :
    alphaNibble hw (orcus_rgb_set_alpha hw r a s) r' = alphaNibble hw s r' := by
  have _h := hr1
  have _h' := hr1'
  unfold alphaNibble
  by_cases h3' : r' ≤ 3
  · rw [if_pos h3', if_pos h3']
    by_cases h3 : r ≤ 3
    · apply fieldOf_congr
      intro j hj
      have hb := set_alpha_ALPHAL_bit hw s r a (r' * 4 + j) h3 (by omega)
      unfold bitOf at hb
      rw [hb, if_neg (by omega)]
    · rw [set_alpha_high_other hw s r a _ (by omega) hLH]
  · rw [if_neg h3', if_neg h3']
    by_cases h3 : r ≤ 3
    · rw [set_alpha_low_other hw s r a _ h3 hLH.symm]
    · apply fieldOf_congr
      intro j hj
      have hb := set_alpha_ALPHAH_bit hw s r a ((r' - 3) * 4 + j) (by omega) (by omega)
      unfold bitOf at hb
      rw [hb, if_neg (by omega)]

/-- C13: for every register state, every region r in 1..5 and every blend
mode m in 0..3, `orcus_rgb_blend(r, m)` (the function `rgbRegionNoBlend(r)`
calls with NO_BLENDING) sets the 2-bit field at bit offset (r-1)*2 of
MLC_STL_MIXMUX to m and changes nothing else: every other bit of
MLC_STL_MIXMUX, so the mode field of every other region, and every register
other than MLC_STL_MIXMUX, so MLC_STL_ALPHAL, MLC_STL_ALPHAH, MLC_STL_CKEY_GR
and MLC_STL_CKEY_B, are unchanged. -/
theorem orcus_rgb_blend_frame (hw : Gp2xRegs) (s : Machine) (r m : Nat)
    (hr1 : 1 ≤ r) (hr5 : r ≤ 5) (hm : m < 4)
    (hL : hw.MLC_STL_ALPHAL ≠ hw.MLC_STL_MIXMUX) (hH : hw.MLC_STL_ALPHAH ≠ hw.MLC_STL_MIXMUX)
    (hG : hw.MLC_STL_CKEY_GR ≠ hw.MLC_STL_MIXMUX) (hB : hw.MLC_STL_CKEY_B ≠ hw.MLC_STL_MIXMUX) :
    fieldOf (REG16 (orcus_rgb_blend hw r m s) hw.MLC_STL_MIXMUX) ((r - 1) * 2) 2 = m
    ∧ (∀ i, ¬ ((r - 1) * 2 ≤ i ∧ i < (r - 1) * 2 + 2) →
        bitOf (REG16 (orcus_rgb_blend hw r m s) hw.MLC_STL_MIXMUX) i
          = bitOf (REG16 s hw.MLC_STL_MIXMUX) i)
    ∧ (∀ r', 1 ≤ r' → r' ≤ 5 → r' ≠ r →
        fieldOf (REG16 (orcus_rgb_blend hw r m s) hw.MLC_STL_MIXMUX) ((r' - 1) * 2) 2
          = fieldOf (REG16 s hw.MLC_STL_MIXMUX) ((r' - 1) * 2) 2)
    ∧ (∀ a, a ≠ hw.MLC_STL_MIXMUX → REG16 (orcus_rgb_blend hw r m s) a = REG16 s a)
    ∧ REG16 (orcus_rgb_blend hw r m s) hw.MLC_STL_ALPHAL = REG16 s hw.MLC_STL_ALPHAL
    ∧ REG16 (orcus_rgb_blend hw r m s) hw.MLC_STL_ALPHAH = REG16 s hw.MLC_STL_ALPHAH
    ∧ REG16 (orcus_rgb_blend hw r m s) hw.MLC_STL_CKEY_GR = REG16 s hw.MLC_STL_CKEY_GR
    ∧ REG16 (orcus_rgb_blend hw r m s) hw.MLC_STL_CKEY_B = REG16 s hw.MLC_STL_CKEY_B
    ∧ (orcus_rgb_blend hw r m s).rgbFormat = s.rgbFormat
    ∧ rgbRegionNoBlend hw r s = orcus_rgb_blend hw r hw.NO_BLENDING s := by
  have _h := hr1
  have hbits : ∀ i, ¬ ((r - 1) * 2 ≤ i ∧ i < (r - 1) * 2 + 2) →
      bitOf (REG16 (orcus_rgb_blend hw r m s) hw.MLC_STL_MIXMUX) i
        = bitOf (REG16 s hw.MLC_STL_MIXMUX) i := by
    intro i hi
    by_cases h16 : i < 16
    · rw [blend_MIXMUX_bit hw s r m i hm h16, if_neg hi]
    · rw [bitOf_REG16_high _ _ _ (by omega), bitOf_REG16_high _ _ _ (by omega)]
  refine ⟨?_, hbits, ?_, fun a ha => blend_other hw s r m a ha, blend_other hw s r m _ hL,
    blend_other hw s r m _ hH, blend_other hw s r m _ hG, blend_other hw s r m _ hB, rfl, rfl⟩
  · apply fieldOf_eq _ _ _ _ (by omega)
    intro j hj
    have hb := blend_MIXMUX_bit hw s r m ((r - 1) * 2 + j) hm (by omega)
    unfold bitOf at hb
    rw [hb, if_pos (by omega), Nat.add_sub_cancel_left]
  · intro r' h1 h5 hne
    apply fieldOf_congr
    intro j hj
    have hb := hbits ((r' - 1) * 2 + j) (by omega)
    unfold bitOf at hb
    exact hb

/-- Witness of C13: mode 2 for region 3 on a machine whose registers hold
0xFFFF. -/
theorem orcus_rgb_blend_frame_witness :
    fieldOf (REG16 (orcus_rgb_blend sampleRegs 3 2 (constMachine 0xFFFF RgbFormat.RGB565))
        sampleRegs.MLC_STL_MIXMUX) ((3 - 1) * 2) 2 = 2
    ∧ (∀ i, ¬ ((3 - 1) * 2 ≤ i ∧ i < (3 - 1) * 2 + 2) →
        bitOf (REG16 (orcus_rgb_blend sampleRegs 3 2 (constMachine 0xFFFF RgbFormat.RGB565))
            sampleRegs.MLC_STL_MIXMUX) i
          = bitOf (REG16 (constMachine 0xFFFF RgbFormat.RGB565) sampleRegs.MLC_STL_MIXMUX) i)
    ∧ (∀ r', 1 ≤ r' → r' ≤ 5 → r' ≠ 3 →
        fieldOf (REG16 (orcus_rgb_blend sampleRegs 3 2 (constMachine 0xFFFF RgbFormat.RGB565))
            sampleRegs.MLC_STL_MIXMUX) ((r' - 1) * 2) 2
          = fieldOf (REG16 (constMachine 0xFFFF RgbFormat.RGB565) sampleRegs.MLC_STL_MIXMUX)
              ((r' - 1) * 2) 2)
    ∧ (∀ a, a ≠ sampleRegs.MLC_STL_MIXMUX →
        REG16 (orcus_rgb_blend sampleRegs 3 2 (constMachine 0xFFFF RgbFormat.RGB565)) a
          = REG16 (constMachine 0xFFFF RgbFormat.RGB565) a)
    ∧ REG16 (orcus_rgb_blend sampleRegs 3 2 (constMachine 0xFFFF RgbFormat.RGB565))
        sampleRegs.MLC_STL_ALPHAL = REG16 (constMachine 0xFFFF RgbFormat.RGB565) sampleRegs.MLC_STL_ALPHAL
    ∧ REG16 (orcus_rgb_blend sampleRegs 3 2 (constMachine 0xFFFF RgbFormat.RGB565))
        sampleRegs.MLC_STL_ALPHAH = REG16 (constMachine 0xFFFF RgbFormat.RGB565) sampleRegs.MLC_STL_ALPHAH
    ∧ REG16 (orcus_rgb_blend sampleRegs 3 2 (constMachine 0xFFFF RgbFormat.RGB565))
        sampleRegs.MLC_STL_CKEY_GR = REG16 (constMachine 0xFFFF RgbFormat.RGB565) sampleRegs.MLC_STL_CKEY_GR
    ∧ REG16 (orcus_rgb_blend sampleRegs 3 2 (constMachine 0xFFFF RgbFormat.RGB565))
        sampleRegs.MLC_STL_CKEY_B = REG16 (constMachine 0xFFFF RgbFormat.RGB565) sampleRegs.MLC_STL_CKEY_B
    ∧ (orcus_rgb_blend sampleRegs 3 2 (constMachine 0xFFFF RgbFormat.RGB565)).rgbFormat
        = (constMachine 0xFFFF RgbFormat.RGB565).rgbFormat
    ∧ rgbRegionNoBlend sampleRegs 3 (constMachine 0xFFFF RgbFormat.RGB565)
        = orcus_rgb_blend sampleRegs 3 sampleRegs.NO_BLENDING (constMachine 0xFFFF RgbFormat.RGB565) :=
  orcus_rgb_blend_frame sampleRegs (constMachine 0xFFFF RgbFormat.RGB565) 3 2
    (by decide) (by decide) (by decide) (by decide) (by decide) (by decide) (by decide)

/-- C14 (as stated, refuted): on a machine whose registers hold 0, the alpha
nibble of region 1 is 0 before `rgbRegionBlendColourKey(1)` and 15 after
it. -/
theorem rgbRegionBlendColourKey_changes_alpha :
    alphaNibble sampleRegs (constMachine 0 RgbFormat.RGB565) 1 = 0
    ∧ alphaNibble sampleRegs
        (rgbRegionBlendColourKey sampleRegs 1 (constMachine 0 RgbFormat.RGB565)) 1 = 15 := by
  decide

/-- C14 (amended): for every register state and every region r in 1..5,
`rgbRegionNoBlend(r)` leaves the alpha nibble of region r and the colour-key
registers MLC_STL_CKEY_GR and MLC_STL_CKEY_B unchanged;
`rgbRegionBlendColourKey(r)` leaves the colour-key registers and the alpha
nibble of every other region unchanged and sets the alpha nibble of region r
to 15. -/
theorem blend_selection_keeps_state (hw : Gp2xRegs) (s : Machine) (r : Nat)
    (hr1 : 1 ≤ r) (hr5 : r ≤ 5)
    (hLM : hw.MLC_STL_ALPHAL ≠ hw.MLC_STL_MIXMUX) (hHM : hw.MLC_STL_ALPHAH ≠ hw.MLC_STL_MIXMUX)
    (hLH : hw.MLC_STL_ALPHAL ≠ hw.MLC_STL_ALPHAH)
    (hGM : hw.MLC_STL_CKEY_GR ≠ hw.MLC_STL_MIXMUX) (hBM : hw.MLC_STL_CKEY_B ≠ hw.MLC_STL_MIXMUX)
    (hGL : hw.MLC_STL_CKEY_GR ≠ hw.MLC_STL_ALPHAL) (hBL : hw.MLC_STL_CKEY_B ≠ hw.MLC_STL_ALPHAL)
    (hGH : hw.MLC_STL_CKEY_GR ≠ hw.MLC_STL_ALPHAH) (hBH : hw.MLC_STL_CKEY_B ≠ hw.MLC_STL_ALPHAH) :
    (alphaNibble hw (rgbRegionNoBlend hw r s) r = alphaNibble hw s r
      ∧ REG16 (rgbRegionNoBlend hw r s) hw.MLC_STL_CKEY_GR = REG16 s hw.MLC_STL_CKEY_GR
      ∧ REG16 (rgbRegionNoBlend hw r s) hw.MLC_STL_CKEY_B = REG16 s hw.MLC_STL_CKEY_B)
    ∧ (REG16 (rgbRegionBlendColourKey hw r s) hw.MLC_STL_CKEY_GR = REG16 s hw.MLC_STL_CKEY_GR
      ∧ REG16 (rgbRegionBlendColourKey hw r s) hw.MLC_STL_CKEY_B = REG16 s hw.MLC_STL_CKEY_B
      ∧ alphaNibble hw (rgbRegionBlendColourKey hw r s) r = 15
      ∧ ∀ r', 1 ≤ r' → r' ≤ 5 → r' ≠ r →
          alphaNibble hw (rgbRegionBlendColourKey hw r s) r' = alphaNibble hw s r') := by
  have hset : ∀ a, a ≠ hw.MLC_STL_ALPHAL → a ≠ hw.MLC_STL_ALPHAH →
      REG16 (orcus_rgb_set_alpha hw r 15 s) a = REG16 s a := by
    intro a hl hh
    by_cases h3 : r ≤ 3
    · exact set_alpha_low_other hw s r 15 a h3 hl
    · exact set_alpha_high_other hw s r 15 a (by omega) hh
  unfold rgbRegionNoBlend rgbRegionBlendColourKey
  refine ⟨⟨blend_alphaNibble hw s r _ r hLM hHM, blend_other hw s r _ _ hGM,
    blend_other hw s r _ _ hBM⟩, ?_, ?_, ?_, ?_⟩
  · rw [blend_other hw _ r _ _ hGM, hset _ hGL hGH]
  · rw [blend_other hw _ r _ _ hBM, hset _ hBL hBH]
  · rw [blend_alphaNibble hw _ r _ r hLM hHM, set_alpha_alphaNibble_same hw s r 15 hr1 hr5]
    rfl
  · intro r' h1 h5 hne
    rw [blend_alphaNibble hw _ r _ r' hLM hHM,
      set_alpha_alphaNibble_other hw s r 15 r' hr1 hr5 h1 h5 hne hLH]

/-- Witness of C14 (amended): region 4 on a machine whose registers hold
0x1234. -/
theorem blend_selection_keeps_state_witness :
    (alphaNibble sampleRegs (rgbRegionNoBlend sampleRegs 4 (constMachine 0x1234 RgbFormat.RGB565)) 4
        = alphaNibble sampleRegs (constMachine 0x1234 RgbFormat.RGB565) 4
      ∧ REG16 (rgbRegionNoBlend sampleRegs 4 (constMachine 0x1234 RgbFormat.RGB565))
          sampleRegs.MLC_STL_CKEY_GR = REG16 (constMachine 0x1234 RgbFormat.RGB565) sampleRegs.MLC_STL_CKEY_GR
      ∧ REG16 (rgbRegionNoBlend sampleRegs 4 (constMachine 0x1234 RgbFormat.RGB565))
          sampleRegs.MLC_STL_CKEY_B = REG16 (constMachine 0x1234 RgbFormat.RGB565) sampleRegs.MLC_STL_CKEY_B)
    ∧ (REG16 (rgbRegionBlendColourKey sampleRegs 4 (constMachine 0x1234 RgbFormat.RGB565))
          sampleRegs.MLC_STL_CKEY_GR = REG16 (constMachine 0x1234 RgbFormat.RGB565) sampleRegs.MLC_STL_CKEY_GR
      ∧ REG16 (rgbRegionBlendColourKey sampleRegs 4 (constMachine 0x1234 RgbFormat.RGB565))
          sampleRegs.MLC_STL_CKEY_B = REG16 (constMachine 0x1234 RgbFormat.RGB565) sampleRegs.MLC_STL_CKEY_B
      ∧ alphaNibble sampleRegs
          (rgbRegionBlendColourKey sampleRegs 4 (constMachine 0x1234 RgbFormat.RGB565)) 4 = 15
      ∧ ∀ r', 1 ≤ r' → r' ≤ 5 → r' ≠ 4 →
          alphaNibble sampleRegs
              (rgbRegionBlendColourKey sampleRegs 4 (constMachine 0x1234 RgbFormat.RGB565)) r'
            = alphaNibble sampleRegs (constMachine 0x1234 RgbFormat.RGB565) r') :=
  blend_selection_keeps_state sampleRegs (constMachine 0x1234 RgbFormat.RGB565) 4
    (by decide) (by decide) (by decide) (by decide) (by decide) (by decide) (by decide)
    (by decide) (by decide) (by decide) (by decide)

/-! ## Framebuffer address (`rgbSetFbAddress`) -/

/-- C15: for every 32-bit address a, after `rgbSetFbAddress(a)` the start
pair and the end pair are identical (MLC_STL_OADRL = MLC_STL_EADRL and
MLC_STL_OADRH = MLC_STL_EADRH) and the address is recovered exactly from
either pair: MLC_STL_OADRL + 65536 * MLC_STL_OADRH = a. -/
theorem rgbSetFbAddress_pairs (hw : Gp2xRegs) (s : Machine) (a : Nat) (ha : a < 4294967296)
    (h1 : hw.MLC_STL_OADRL ≠ hw.MLC_STL_OADRH) (h2 : hw.MLC_STL_OADRL ≠ hw.MLC_STL_EADRL)
    (h3 : hw.MLC_STL_OADRL ≠ hw.MLC_STL_EADRH) (h4 : hw.MLC_STL_OADRH ≠ hw.MLC_STL_EADRL)
    (h5 : hw.MLC_STL_OADRH ≠ hw.MLC_STL_EADRH) (h6 : hw.MLC_STL_EADRL ≠ hw.MLC_STL_EADRH) :
    REG16 (rgbSetFbAddress hw a s) hw.MLC_STL_OADRL
      = REG16 (rgbSetFbAddress hw a s) hw.MLC_STL_EADRL
    ∧ REG16 (rgbSetFbAddress hw a s) hw.MLC_STL_OADRH
      = REG16 (rgbSetFbAddress hw a s) hw.MLC_STL_EADRH
    ∧ REG16 (rgbSetFbAddress hw a s) hw.MLC_STL_OADRL
        + 65536 * REG16 (rgbSetFbAddress hw a s) hw.MLC_STL_OADRH = a
    ∧ REG16 (rgbSetFbAddress hw a s) hw.MLC_STL_EADRL
        + 65536 * REG16 (rgbSetFbAddress hw a s) hw.MLC_STL_EADRH = a := by
  have hmod : a % 4294967296 = a := Nat.mod_eq_of_lt ha
  have elo : (a &&& 0xFFFF) % 65536 = a % 65536 := by
    rw [show (0xFFFF : Nat) = 2 ^ 16 - 1 by norm_num, Nat.and_pow_two_sub_one_eq_mod]
    omega
  have ehi : (a >>> 16) % 65536 = a / 65536 := by
    rw [Nat.shiftRight_eq_div_pow]
    omega
  have eOL : REG16 (rgbSetFbAddress hw a s) hw.MLC_STL_OADRL = a % 65536 := by
    unfold rgbSetFbAddress
    simp only [hmod]
    rw [REG16_set_other _ _ h3, REG16_set_other _ _ h2, REG16_set_other _ _ h1,
      REG16_set_same, elo]
  have eOH : REG16 (rgbSetFbAddress hw a s) hw.MLC_STL_OADRH = a / 65536 := by
    unfold rgbSetFbAddress
    simp only [hmod]
    rw [REG16_set_other _ _ h5, REG16_set_other _ _ h4, REG16_set_same, ehi]
  have eEL : REG16 (rgbSetFbAddress hw a s) hw.MLC_STL_EADRL = a % 65536 := by
    unfold rgbSetFbAddress
    simp only [hmod]
    rw [REG16_set_other _ _ h6, REG16_set_same, elo]
  have eEH : REG16 (rgbSetFbAddress hw a s) hw.MLC_STL_EADRH = a / 65536 := by
    unfold rgbSetFbAddress
    simp only [hmod]
    rw [REG16_set_same, ehi]
  rw [eOL, eOH, eEL, eEH]
  exact ⟨rfl, rfl, Nat.mod_add_div a 65536, Nat.mod_add_div a 65536⟩

/-- Witness of C15: the address 0x03101234 on a machine whose registers hold
0. -/
theorem rgbSetFbAddress_pairs_witness :
    REG16 (rgbSetFbAddress sampleRegs 0x03101234 (constMachine 0 RgbFormat.RGB565))
        sampleRegs.MLC_STL_OADRL
      = REG16 (rgbSetFbAddress sampleRegs 0x03101234 (constMachine 0 RgbFormat.RGB565))
        sampleRegs.MLC_STL_EADRL
    ∧ REG16 (rgbSetFbAddress sampleRegs 0x03101234 (constMachine 0 RgbFormat.RGB565))
        sampleRegs.MLC_STL_OADRH
      = REG16 (rgbSetFbAddress sampleRegs 0x03101234 (constMachine 0 RgbFormat.RGB565))
        sampleRegs.MLC_STL_EADRH
    ∧ REG16 (rgbSetFbAddress sampleRegs 0x03101234 (constMachine 0 RgbFormat.RGB565))
        sampleRegs.MLC_STL_OADRL
        + 65536 * REG16 (rgbSetFbAddress sampleRegs 0x03101234 (constMachine 0 RgbFormat.RGB565))
          sampleRegs.MLC_STL_OADRH = 0x03101234
    ∧ REG16 (rgbSetFbAddress sampleRegs 0x03101234 (constMachine 0 RgbFormat.RGB565))
        sampleRegs.MLC_STL_EADRL
        + 65536 * REG16 (rgbSetFbAddress sampleRegs 0x03101234 (constMachine 0 RgbFormat.RGB565))
          sampleRegs.MLC_STL_EADRH = 0x03101234 :=
  rgbSetFbAddress_pairs sampleRegs (constMachine 0 RgbFormat.RGB565) 0x03101234
    (by decide) (by decide) (by decide) (by decide) (by decide) (by decide) (by decide)

/-! ## Pixel format field (`rgbSetPixelFormat`) -/

/-- `rgbSetScale` writes the four scale registers only. -/
theorem rgbSetScale_other (hw : Gp2xRegs) (s : Machine) (srcW srcH : Int) (a : Nat)
    (h1 : a ≠ hw.MLC_STL_HSC) (h2 : a ≠ hw.MLC_STL_VSCL) (h3 : a ≠ hw.MLC_STL_VSCH)
    (h4 : a ≠ hw.MLC_STL_HW) :
    REG16 (rgbSetScale hw srcW srcH s) a = REG16 s a := by
  unfold rgbSetScale
  simp only []
  rw [REG16_set_other _ _ h4, REG16_set_other _ _ h3, REG16_set_other _ _ h2,
    REG16_set_other _ _ h1]

/-- Content of MLC_STL_CNTL after `rgbSetPixelFormat`: the two
read-modify-writes of lines 50 and 51. -/
theorem rgbSetPixelFormat_CNTL (hw : Gp2xRegs) (s : Machine) (f : RgbFormat)
    (h1 : hw.MLC_STL_CNTL ≠ hw.MLC_STL_HSC) (h2 : hw.MLC_STL_CNTL ≠ hw.MLC_STL_VSCL)
    (h3 : hw.MLC_STL_CNTL ≠ hw.MLC_STL_VSCH) (h4 : hw.MLC_STL_CNTL ≠ hw.MLC_STL_HW) :
    REG16 (rgbSetPixelFormat hw f s) hw.MLC_STL_CNTL
      = (((REG16 s hw.MLC_STL_CNTL &&& not32 (hw.MLC_STL_BPP 3)) % 65536)
          ||| hw.MLC_STL_BPP (hw.formatValue f)) % 65536 := by
  unfold rgbSetPixelFormat
  simp only []
  rw [rgbSetScale_other hw _ 320 240 _ h1 h2 h3 h4, REG16_set_same, REG16_set_same]
  rfl

/-- Bit `i` of MLC_STL_CNTL after `rgbSetPixelFormat`, for the format field
at bits 9 and 10. -/
theorem rgbSetPixelFormat_CNTL_bit (hw : Gp2xRegs) (s : Machine) (f : RgbFormat) (i : Nat)
    (hBPP : ∀ x, hw.MLC_STL_BPP x = x <<< 9) (hfv : hw.formatValue f < 4)
    (h1 : hw.MLC_STL_CNTL ≠ hw.MLC_STL_HSC) (h2 : hw.MLC_STL_CNTL ≠ hw.MLC_STL_VSCL)
    (h3 : hw.MLC_STL_CNTL ≠ hw.MLC_STL_VSCH) (h4 : hw.MLC_STL_CNTL ≠ hw.MLC_STL_HW)
    (hi : i < 16) :
    bitOf (REG16 (rgbSetPixelFormat hw f s) hw.MLC_STL_CNTL) i =
      if 9 ≤ i ∧ i < 9 + 2 then (hw.formatValue f).testBit (i - 9)
      else bitOf (REG16 s hw.MLC_STL_CNTL) i := by
  have hput := testBit_putField (REG16 s hw.MLC_STL_CNTL) 3 (hw.formatValue f) 9 2 i
    (by norm_num) (by omega) (by omega)
  have hsame : ((((REG16 s hw.MLC_STL_CNTL &&& not32 (3 <<< 9)) % 65536)
        ||| hw.formatValue f <<< 9) % 65536).testBit i
      = ((REG16 s hw.MLC_STL_CNTL &&& not32 (3 <<< 9)) ||| hw.formatValue f <<< 9).testBit i := by
    rw [testBit_mod_65536, Nat.testBit_or, testBit_mod_65536, Nat.testBit_or]
    simp [hi]
  unfold bitOf
  rw [rgbSetPixelFormat_CNTL hw s f h1 h2 h3 h4, hBPP, hBPP, hsame, hput]

/-- C16: for every register state and each of the four pixel formats f, after
`rgbSetPixelFormat(f)` the 2-bit format field of MLC_STL_CNTL (the bits
selected by MLC_STL_BPP(3), bits 9 and 10 for `MLC_STL_BPP(x) = x << 9`) holds
the value of f, and every other bit of MLC_STL_CNTL, including every region
enable bit at position (r-1)*2 for r in 1..5, is unchanged. -/
theorem rgbSetPixelFormat_format_field (hw : Gp2xRegs) (s : Machine) (f : RgbFormat)
    (hBPP : ∀ x, hw.MLC_STL_BPP x = x <<< 9) (hfv : hw.formatValue f < 4)
    (h1 : hw.MLC_STL_CNTL ≠ hw.MLC_STL_HSC) (h2 : hw.MLC_STL_CNTL ≠ hw.MLC_STL_VSCL)
    (h3 : hw.MLC_STL_CNTL ≠ hw.MLC_STL_VSCH) (h4 : hw.MLC_STL_CNTL ≠ hw.MLC_STL_HW) :
    fieldOf (REG16 (rgbSetPixelFormat hw f s) hw.MLC_STL_CNTL) 9 2 = hw.formatValue f
    ∧ (∀ i, (hw.MLC_STL_BPP 3).testBit i = true ↔ (i = 9 ∨ i = 10))
    ∧ (∀ i, i ≠ 9 → i ≠ 10 →
        bitOf (REG16 (rgbSetPixelFormat hw f s) hw.MLC_STL_CNTL) i
          = bitOf (REG16 s hw.MLC_STL_CNTL) i)
    ∧ (∀ r, 1 ≤ r → r ≤ 5 →
        bitOf (REG16 (rgbSetPixelFormat hw f s) hw.MLC_STL_CNTL) ((r - 1) * 2)
          = bitOf (REG16 s hw.MLC_STL_CNTL) ((r - 1) * 2)) := by
  have hbits : ∀ i, i ≠ 9 → i ≠ 10 →
      bitOf (REG16 (rgbSetPixelFormat hw f s) hw.MLC_STL_CNTL) i
        = bitOf (REG16 s hw.MLC_STL_CNTL) i := by
    intro i h9 h10
    by_cases h16 : i < 16
    · rw [rgbSetPixelFormat_CNTL_bit hw s f i hBPP hfv h1 h2 h3 h4 h16, if_neg (by omega)]
    · rw [bitOf_REG16_high _ _ _ (by omega), bitOf_REG16_high _ _ _ (by omega)]
  refine ⟨?_, ?_, hbits, ?_⟩
  · apply fieldOf_eq _ _ _ _ (by omega)
    intro j hj
    have hb := rgbSetPixelFormat_CNTL_bit hw s f (9 + j) hBPP hfv h1 h2 h3 h4 (by omega)
    unfold bitOf at hb
    rw [hb, if_pos (by omega), Nat.add_sub_cancel_left]
  · intro i
    rw [hBPP, Nat.testBit_shiftLeft, show (3 : Nat) = 2 ^ 2 - 1 by norm_num,
      Nat.testBit_two_pow_sub_one]
    simp only [Bool.and_eq_true, decide_eq_true_eq]
    omega
  · intro r hr1 hr5
    exact hbits _ (by omega) (by omega)

/-- Witness of C16: switching to RGB565 on a machine whose registers hold
0xFFFF. -/
theorem rgbSetPixelFormat_format_field_witness :
    fieldOf (REG16 (rgbSetPixelFormat sampleRegs RgbFormat.RGB565 (constMachine 0xFFFF RgbFormat.P4BPP)) sampleRegs.MLC_STL_CNTL) 9 2
      = sampleRegs.formatValue RgbFormat.RGB565
    ∧ (∀ i, (sampleRegs.MLC_STL_BPP 3).testBit i = true ↔ (i = 9 ∨ i = 10))
    ∧ (∀ i, i ≠ 9 → i ≠ 10 →
        bitOf (REG16 (rgbSetPixelFormat sampleRegs RgbFormat.RGB565 (constMachine 0xFFFF RgbFormat.P4BPP)) sampleRegs.MLC_STL_CNTL) i
          = bitOf (REG16 (constMachine 0xFFFF RgbFormat.P4BPP) sampleRegs.MLC_STL_CNTL) i)
    ∧ (∀ r, 1 ≤ r → r ≤ 5 →
        bitOf (REG16 (rgbSetPixelFormat sampleRegs RgbFormat.RGB565 (constMachine 0xFFFF RgbFormat.P4BPP)) sampleRegs.MLC_STL_CNTL) ((r - 1) * 2)
          = bitOf (REG16 (constMachine 0xFFFF RgbFormat.P4BPP) sampleRegs.MLC_STL_CNTL) ((r - 1) * 2)) :=
  rgbSetPixelFormat_format_field sampleRegs (constMachine 0xFFFF RgbFormat.P4BPP) RgbFormat.RGB565
    (fun _ => rfl) (by decide) (by decide) (by decide) (by decide) (by decide)

/-! ## The write sequence of `rgbSetPalette` -/

theorem paletteLoopWrites_length (hw : Gp2xRegs) (colours : Nat → Nat) (n : Nat) :
    (paletteLoopWrites hw colours n).length = 2 * n := by
  induction n with
  | zero => rfl
  | succ n ih => simp only [paletteLoopWrites, List.length_cons, ih]; omega

/-- The loop's writes by position: the pair at positions `2k`, `2k + 1`
carries the colour of index `n - 1 - k`. -/
theorem paletteLoopWrites_get (hw : Gp2xRegs) (colours : Nat → Nat) (n : Nat) :
    ∀ k, k < n →
      (paletteLoopWrites hw colours n)[2 * k]?
        = some (hw.MLC_STL_PALLT_D, (paletteWords (colours (n - 1 - k))).1)
      ∧ (paletteLoopWrites hw colours n)[2 * k + 1]?
        = some (hw.MLC_STL_PALLT_D, (paletteWords (colours (n - 1 - k))).2) := by
  induction n with
  | zero => intro k hk; omega
  | succ n ih =>
    intro k hk
    cases k with
    | zero => simp [paletteLoopWrites]
    | succ k =>
      obtain ⟨a, b⟩ := ih k (by omega)
      have e1 : 2 * (k + 1) = 2 * k + 1 + 1 := by omega
      have e2 : n + 1 - 1 - (k + 1) = n - 1 - k := by omega
      rw [e1, e2]
      simp only [paletteLoopWrites, List.getElem?_cons_succ]
      exact ⟨a, b⟩

theorem paletteWords_snd (c : Nat) : (paletteWords c).2 = (c % 4294967296) >>> 24 := by
  have h : (c % 4294967296) >>> 24 < 65536 := by
    rw [Nat.shiftRight_eq_div_pow]; omega
  show ((c % 4294967296) >>> 24) &&& 0xFFFF = (c % 4294967296) >>> 24
  rw [show (0xFFFF : Nat) = 2 ^ 16 - 1 by norm_num, Nat.and_pow_two_sub_one_eq_mod]
  exact Nat.mod_eq_of_lt h

/-- The two half-words of a colour do not depend on its low 8 bits. -/
theorem paletteWords_low8 (c d : Nat) (h : c / 256 = d / 256) :
    paletteWords c = paletteWords d := by
  have e8 : (c % 4294967296) >>> 8 = (d % 4294967296) >>> 8 := by
    rw [Nat.shiftRight_eq_div_pow, Nat.shiftRight_eq_div_pow]; omega
  have e24 : (c % 4294967296) >>> 24 = (d % 4294967296) >>> 24 := by
    rw [Nat.shiftRight_eq_div_pow, Nat.shiftRight_eq_div_pow]; omega
  unfold paletteWords
  rw [e8, e24]

theorem paletteLoopWrites_congr (hw : Gp2xRegs) (colours colours' : Nat → Nat) (n : Nat)
    (h : ∀ i, i < n → colours i / 256 = colours' i / 256) :
    paletteLoopWrites hw colours n = paletteLoopWrites hw colours' n := by
  induction n with
  | zero => rfl
  | succ n ih =>
    simp only [paletteLoopWrites]
    rw [paletteWords_low8 _ _ (h n (by omega)), ih (fun i hi => h i (by omega))]

/-- C17: for every colour array, every count >= 0 and every startIdx (a
uint8_t), `rgbSetPalette(colours, count, startIdx)` terminates after writing
startIdx*2 once to MLC_STL_PALLT_A followed by exactly 2*count writes to
MLC_STL_PALLT_D (none when count = 0): for i from count-1 down to 0, first
(colours[i] >> 8) & 0xFFFF and then colours[i] >> 24, so that the writes do
not depend on the low 8 bits of any colour. -/
theorem rgbSetPalette_write_sequence (hw : Gp2xRegs) (s : Machine) (colours : Nat → Nat)
    (count startIdx : Nat) (hs : startIdx ≤ 255) :
    (newWrites s (rgbSetPalette hw colours count startIdx s)).length = 1 + 2 * count
    ∧ (newWrites s (rgbSetPalette hw colours count startIdx s))[0]?
      = some (hw.MLC_STL_PALLT_A, startIdx * 2)
    ∧ (∀ k, k < count →
        (newWrites s (rgbSetPalette hw colours count startIdx s))[1 + 2 * k]?
          = some (hw.MLC_STL_PALLT_D,
              ((colours (count - 1 - k) % 4294967296) >>> 8) &&& 0xFFFF)
        ∧ (newWrites s (rgbSetPalette hw colours count startIdx s))[1 + 2 * k + 1]?
          = some (hw.MLC_STL_PALLT_D, (colours (count - 1 - k) % 4294967296) >>> 24))
    ∧ (∀ colours' : Nat → Nat, (∀ i, i < count → colours i / 256 = colours' i / 256) →
        newWrites s (rgbSetPalette hw colours' count startIdx s)
          = newWrites s (rgbSetPalette hw colours count startIdx s)) := by
  have hmod : startIdx % 256 = startIdx := Nat.mod_eq_of_lt (by omega)
  have hW : ∀ c : Nat → Nat, newWrites s (rgbSetPalette hw c count startIdx s)
      = (hw.MLC_STL_PALLT_A, startIdx * 2) :: paletteLoopWrites hw c count := by
    intro c
    apply newWrites_append
    rw [rgbSetPalette_writes, hmod]
  refine ⟨?_, ?_, ?_, ?_⟩
  · rw [hW, List.length_cons, paletteLoopWrites_length]; omega
  · rw [hW]; simp
  · intro k hk
    obtain ⟨a, b⟩ := paletteLoopWrites_get hw colours count k hk
    rw [hW, show 1 + 2 * k + 1 = (2 * k + 1) + 1 by omega, show 1 + 2 * k = 2 * k + 1 by omega,
      List.getElem?_cons_succ, List.getElem?_cons_succ, a, b, paletteWords_snd]
    exact ⟨rfl, rfl⟩
  · intro colours' h
    rw [hW, hW, paletteLoopWrites_congr hw colours colours' count h]

/-- Witness of C17: three colours uploaded at index 4. -/
theorem rgbSetPalette_write_sequence_witness :
    (newWrites (constMachine 0 RgbFormat.P8BPP)
        (rgbSetPalette sampleRegs threeColours 3 4 (constMachine 0 RgbFormat.P8BPP))).length
      = 1 + 2 * 3
    ∧ (newWrites (constMachine 0 RgbFormat.P8BPP)
        (rgbSetPalette sampleRegs threeColours 3 4 (constMachine 0 RgbFormat.P8BPP)))[0]?
      = some (sampleRegs.MLC_STL_PALLT_A, 4 * 2)
    ∧ (∀ k, k < 3 →
        (newWrites (constMachine 0 RgbFormat.P8BPP)
            (rgbSetPalette sampleRegs threeColours 3 4
              (constMachine 0 RgbFormat.P8BPP)))[1 + 2 * k]?
          = some (sampleRegs.MLC_STL_PALLT_D,
              ((threeColours (3 - 1 - k) % 4294967296) >>> 8) &&& 0xFFFF)
        ∧ (newWrites (constMachine 0 RgbFormat.P8BPP)
            (rgbSetPalette sampleRegs threeColours 3 4
              (constMachine 0 RgbFormat.P8BPP)))[1 + 2 * k + 1]?
          = some (sampleRegs.MLC_STL_PALLT_D, (threeColours (3 - 1 - k) % 4294967296) >>> 24))
    ∧ (∀ colours' : Nat → Nat, (∀ i, i < 3 → threeColours i / 256 = colours' i / 256) →
        newWrites (constMachine 0 RgbFormat.P8BPP)
            (rgbSetPalette sampleRegs colours' 3 4 (constMachine 0 RgbFormat.P8BPP))
          = newWrites (constMachine 0 RgbFormat.P8BPP)
            (rgbSetPalette sampleRegs threeColours 3 4 (constMachine 0 RgbFormat.P8BPP))) :=
  rgbSetPalette_write_sequence sampleRegs (constMachine 0 RgbFormat.P8BPP) threeColours 3 4
    (by decide)

/-! ## Display timing (`orcus_configure_display`) -/

/-- The writes of lines 8-27, in order. -/
theorem orcus_configure_display_writes (hw : DpcRegs) (s : Machine) (isF200 : Bool)
    (hd : hw.DPC_CNTL ∉ (timingRegs hw).drop 2) :
    (newWrites s (orcus_configure_display hw isF200 s)).take 18
      = [(hw.DISPCSETREG, 0x5E00), (hw.DPC_CNTL, dpcCntlInit hw % 65536),
          (hw.DPC_CLKCNTL, 0x10), (hw.DPC_X_MAX, 319), (hw.DPC_Y_MAX, 239),
          (hw.DPC_HS_WIDTH, 0x041D), (hw.DPC_HS_END, 0x0009), (hw.DPC_HS_STR, 0x0009),
          (hw.DPC_DE, 0x250), (hw.DPC_V_SYNC, 0x0403), (hw.DPC_V_END, 0x0816),
          (hw.DPC_FPIPOL1, 0x0010), (hw.DPC_FPIPOL2, 0xFFFF), (hw.DPC_FPIPOL3, 0x00FF),
          (hw.DPC_FPIATV1, 0xFFFF), (hw.DPC_FPIATV2, 0xFFFF), (hw.DPC_FPIATV3, 0xFFFF),
          (hw.DPC_CNTL, (dpcCntlInit hw % 65536 ||| hw.ENB 1) % 65536)] := by
  simp only [timingRegs, List.drop_succ_cons, List.drop_zero, List.mem_cons, List.mem_singleton,
    not_or, List.not_mem_nil, not_false_eq_true, and_true] at hd
  obtain ⟨d1, d2, d3, d4, d5, d6, d7, d8, d9, d10, d11, d12, d13, d14, d15⟩ := hd
  have hread : ∀ (t : Machine) (a v : Nat), hw.DPC_CNTL ≠ a →
      REG16 (REG16_set t a v) hw.DPC_CNTL = REG16 t hw.DPC_CNTL :=
    fun t a v h => REG16_set_other t v h
  cases isF200 <;>
    simp [newWrites, orcus_configure_display, orcus_delay, REG16_set_writes, hread, d1, d2, d3,
      d4, d5, d6, d7, d8, d9, d10, d11, d12, d13, d14, d15, REG16_set_same]

/-- The registers written by `orcus_configure_display`, in order: the
timing registers, DPC_CNTL again, then the F200 path if taken. -/
theorem orcus_configure_display_regs (hw : DpcRegs) (s : Machine) (isF200 : Bool) :
    (newWrites s (orcus_configure_display hw isF200 s)).map Prod.fst
      = (timingRegs hw ++ [hw.DPC_CNTL]) ++ (if isF200 then f200Regs hw else []) := by
  cases isF200 <;>
    simp [newWrites, orcus_configure_display, orcus_delay, REG16_set_writes, timingRegs,
      f200Regs]

theorem f200Regs_subset (hw : DpcRegs) (a : Nat) (h : a ∈ f200Regs hw) :
    a ∈ gpioOutRegs hw := by
  simp only [f200Regs, List.mem_cons, List.mem_singleton, List.not_mem_nil, or_false] at h
  simp only [gpioOutRegs, List.mem_cons, List.mem_singleton, List.not_mem_nil, or_false]
  tauto

/-- C18: in the sequence of register writes of
`orcus_configure_display(isF200)`, the write that sets the enable bit in
DPC_CNTL (the 18th) comes after every other write to a display timing
register (DISPCSETREG and the DPC_* registers) and keeps the DPC_CNTL bits
written earlier; when isF200 is false it is the final register write and no
GPIO output register (GPIOFOUT, GPIOBOUT, GPIOLOUT) is written. -/
theorem orcus_configure_display_enable_last (hw : DpcRegs) (s : Machine) (isF200 : Bool)
    (hd : hw.DPC_CNTL ∉ (timingRegs hw).drop 2)
    (hg : ∀ g, g ∈ gpioOutRegs hw → g ∉ timingRegs hw) :
    (newWrites s (orcus_configure_display hw isF200 s)).map Prod.fst
      = (timingRegs hw ++ [hw.DPC_CNTL]) ++ (if isF200 then f200Regs hw else [])
    ∧ (newWrites s (orcus_configure_display hw isF200 s))[1]?
      = some (hw.DPC_CNTL, dpcCntlInit hw % 65536)
    ∧ (newWrites s (orcus_configure_display hw isF200 s))[17]?
      = some (hw.DPC_CNTL, (dpcCntlInit hw % 65536 ||| hw.ENB 1) % 65536)
    ∧ (∀ i, i < 16 → (hw.ENB 1).testBit i = true →
        bitOf ((dpcCntlInit hw % 65536 ||| hw.ENB 1) % 65536) i = true)
    ∧ (∀ i, (hw.ENB 1).testBit i = false →
        bitOf ((dpcCntlInit hw % 65536 ||| hw.ENB 1) % 65536) i
          = bitOf (dpcCntlInit hw % 65536) i)
    ∧ (∀ k w, (newWrites s (orcus_configure_display hw isF200 s))[k]? = some w →
        w.1 ∈ timingRegs hw → k ≤ 17)
    ∧ (isF200 = false →
        (newWrites s (orcus_configure_display hw isF200 s)).length = 18
        ∧ ∀ w, w ∈ newWrites s (orcus_configure_display hw isF200 s) →
            w.1 ∉ gpioOutRegs hw) := by
  have hregs := orcus_configure_display_regs hw s isF200
  have htake := orcus_configure_display_writes hw s isF200 hd
  have hlen : (timingRegs hw ++ [hw.DPC_CNTL]).length = 18 := rfl
  have hget : ∀ k, k < 18 →
      (newWrites s (orcus_configure_display hw isF200 s))[k]?
        = ((newWrites s (orcus_configure_display hw isF200 s)).take 18)[k]? :=
    fun k hk => (List.getElem?_take_of_lt hk).symm
  refine ⟨hregs, ?_, ?_, ?_, ?_, ?_, ?_⟩
  · rw [hget 1 (by omega), htake]; rfl
  · rw [hget 17 (by omega), htake]; rfl
  · intro i hi hb
    unfold bitOf
    rw [testBit_mod_65536, Nat.testBit_or, hb]
    simp [hi]
  · intro i hb
    unfold bitOf
    rw [testBit_mod_65536, Nat.testBit_or, testBit_mod_65536, hb]
    by_cases hi : i < 16 <;> simp [hi]
  · intro k w hk hmem
    by_contra hgt
    have hk2 : ((newWrites s (orcus_configure_display hw isF200 s)).map Prod.fst)[k]?
        = some w.1 := by
      rw [List.getElem?_map, hk]; rfl
    rw [hregs, List.getElem?_append_right (by rw [hlen]; omega)] at hk2
    have hin : w.1 ∈ (if isF200 then f200Regs hw else []) := List.getElem?_mem hk2
    cases isF200
    · simp at hin
    · exact hg _ (f200Regs_subset hw _ (by simpa using hin)) hmem
  · intro hF
    subst hF
    have hl : (newWrites s (orcus_configure_display hw false s)).length = 18 := by
      rw [← List.length_map _ Prod.fst, hregs]; rfl
    refine ⟨hl, ?_⟩
    intro w hw1 hgp
    have hfst : w.1 ∈ (newWrites s (orcus_configure_display hw false s)).map Prod.fst :=
      List.mem_map.mpr ⟨w, hw1, rfl⟩
    rw [hregs] at hfst
    simp only [Bool.false_eq_true, if_false, List.append_nil, List.mem_append,
      List.mem_singleton] at hfst
    rcases hfst with h | h
    · exact hg _ hgp h
    · apply hg _ hgp
      rw [h]
      simp [timingRegs]

/-- Witness of C18: the F200 path on a machine whose registers hold 0. -/
theorem orcus_configure_display_enable_last_witness :
    (newWrites (constMachine 0 RgbFormat.RGB565)
          (orcus_configure_display sampleDpc true (constMachine 0 RgbFormat.RGB565))).map Prod.fst
      = (timingRegs sampleDpc ++ [sampleDpc.DPC_CNTL])
          ++ (if true = true then f200Regs sampleDpc else [])
    ∧ (newWrites (constMachine 0 RgbFormat.RGB565)
          (orcus_configure_display sampleDpc true (constMachine 0 RgbFormat.RGB565)))[1]?
      = some (sampleDpc.DPC_CNTL, dpcCntlInit sampleDpc % 65536)
    ∧ (newWrites (constMachine 0 RgbFormat.RGB565)
          (orcus_configure_display sampleDpc true (constMachine 0 RgbFormat.RGB565)))[17]?
      = some (sampleDpc.DPC_CNTL, (dpcCntlInit sampleDpc % 65536 ||| sampleDpc.ENB 1) % 65536)
    ∧ (∀ i, i < 16 → (sampleDpc.ENB 1).testBit i = true →
        bitOf ((dpcCntlInit sampleDpc % 65536 ||| sampleDpc.ENB 1) % 65536) i = true)
    ∧ (∀ i, (sampleDpc.ENB 1).testBit i = false →
        bitOf ((dpcCntlInit sampleDpc % 65536 ||| sampleDpc.ENB 1) % 65536) i
          = bitOf (dpcCntlInit sampleDpc % 65536) i)
    ∧ (∀ k w, (newWrites (constMachine 0 RgbFormat.RGB565)
          (orcus_configure_display sampleDpc true (constMachine 0 RgbFormat.RGB565)))[k]? = some w →
        w.1 ∈ timingRegs sampleDpc → k ≤ 17)
    ∧ (true = false →
        (newWrites (constMachine 0 RgbFormat.RGB565)
          (orcus_configure_display sampleDpc true (constMachine 0 RgbFormat.RGB565))).length = 18
        ∧ ∀ w, w ∈ (newWrites (constMachine 0 RgbFormat.RGB565)
          (orcus_configure_display sampleDpc true (constMachine 0 RgbFormat.RGB565))) →
            w.1 ∉ gpioOutRegs sampleDpc) :=
  orcus_configure_display_enable_last sampleDpc (constMachine 0 RgbFormat.RGB565) true
    (by decide) (by decide)

/-! ## Implicit behaviour of `rgbToggleRegion` and `rgbSetScale` -/

/-- C19: for every register state, every region r in 1..5 and both values of
onOff, `rgbToggleRegion(r, onOff)` forces bits 1, 3, 5 and 7 of MLC_STL_CNTL
to 1 (the constant 0xAA) whatever they were before, and every bit of
MLC_STL_CNTL other than bit (r-1)*2 and bits 1, 3, 5, 7 keeps its value, so
the pixel-format field at bits 9..10 survives a region toggle. -/
theorem rgbToggleRegion_forces_0xAA (hw : Gp2xRegs) (s : Machine) (r : Nat) (onOff : Bool)
    (hr1 : 1 ≤ r) (hr5 : r ≤ 5) (hne : hw.MLC_STL_CNTL ≠ hw.MLC_OVLAY_CNTR) :
    (∀ i, (i = 1 ∨ i = 3 ∨ i = 5 ∨ i = 7) →
        bitOf (REG16 (rgbToggleRegion hw r onOff s) hw.MLC_STL_CNTL) i = true)
    ∧ (∀ i, i ≠ (r - 1) * 2 → ¬ (i = 1 ∨ i = 3 ∨ i = 5 ∨ i = 7) →
        bitOf (REG16 (rgbToggleRegion hw r onOff s) hw.MLC_STL_CNTL) i
          = bitOf (REG16 s hw.MLC_STL_CNTL) i)
    ∧ fieldOf (REG16 (rgbToggleRegion hw r onOff s) hw.MLC_STL_CNTL) 9 2
        = fieldOf (REG16 s hw.MLC_STL_CNTL) 9 2 := by
  have _h := hr1
  have hkeep : ∀ i, i ≠ (r - 1) * 2 → ¬ (i = 1 ∨ i = 3 ∨ i = 5 ∨ i = 7) →
      bitOf (REG16 (rgbToggleRegion hw r onOff s) hw.MLC_STL_CNTL) i
        = bitOf (REG16 s hw.MLC_STL_CNTL) i := by
    intro i hi hodd
    by_cases h16 : i < 16
    · rw [toggle_CNTL_bit hw s r onOff i h16 hne, if_neg hi, decide_eq_false hodd,
        Bool.or_false]
    · rw [bitOf_REG16_high _ _ _ (by omega), bitOf_REG16_high _ _ _ (by omega)]
  refine ⟨?_, hkeep, ?_⟩
  · intro i hodd
    rw [toggle_CNTL_bit hw s r onOff i (by omega) hne, if_neg (by omega),
      decide_eq_true hodd, Bool.or_true]
  · apply fieldOf_congr
    intro j hj
    have hb := hkeep (9 + j) (by omega) (by omega)
    unfold bitOf at hb
    exact hb

/-- Witness of C19: enabling region 2 on a machine whose registers hold
0x0600 (format field 3, bits 1, 3, 5, 7 clear). -/
theorem rgbToggleRegion_forces_0xAA_witness :
    (∀ i, (i = 1 ∨ i = 3 ∨ i = 5 ∨ i = 7) →
        bitOf (REG16 (rgbToggleRegion sampleRegs 2 true (constMachine 0x0600 RgbFormat.RGB565)) sampleRegs.MLC_STL_CNTL) i = true)
    ∧ (∀ i, i ≠ (2 - 1) * 2 → ¬ (i = 1 ∨ i = 3 ∨ i = 5 ∨ i = 7) →
        bitOf (REG16 (rgbToggleRegion sampleRegs 2 true (constMachine 0x0600 RgbFormat.RGB565)) sampleRegs.MLC_STL_CNTL) i
          = bitOf (REG16 (constMachine 0x0600 RgbFormat.RGB565) sampleRegs.MLC_STL_CNTL) i)
    ∧ fieldOf (REG16 (rgbToggleRegion sampleRegs 2 true (constMachine 0x0600 RgbFormat.RGB565)) sampleRegs.MLC_STL_CNTL) 9 2
        = fieldOf (REG16 (constMachine 0x0600 RgbFormat.RGB565) sampleRegs.MLC_STL_CNTL) 9 2 :=
  rgbToggleRegion_forces_0xAA sampleRegs (constMachine 0x0600 RgbFormat.RGB565) 2 true
    (by decide) (by decide) (by decide)

/-- C20: for every pixel format and every srcH in 0..1024,
`rgbSetScale(0, srcH)` writes 0 to MLC_STL_HSC and also to MLC_STL_HW,
MLC_STL_VSCL and MLC_STL_VSCH; whereas `rgbSetScale(srcW, 0)` with srcW in
1..1024 writes 0 to the two halves of the vertical factor only and writes the
non-zero (srcW*1024)/320 to MLC_STL_HSC (and the stride to MLC_STL_HW). -/
theorem rgbSetScale_zero_axis (hw : Gp2xRegs) (s : Machine) (srcW srcH : Nat)
    (hW1 : 1 ≤ srcW) (hW : srcW ≤ 1024) (hH : srcH ≤ 1024) :
    newWrites s (rgbSetScale hw 0 (srcH : Int) s)
      = [(hw.MLC_STL_HSC, 0), (hw.MLC_STL_VSCL, 0), (hw.MLC_STL_VSCH, 0), (hw.MLC_STL_HW, 0)]
    ∧ newWrites s (rgbSetScale hw (srcW : Int) 0 s)
      = [(hw.MLC_STL_HSC, (srcW * 1024) / 320), (hw.MLC_STL_VSCL, 0), (hw.MLC_STL_VSCH, 0),
          (hw.MLC_STL_HW, specStride s.rgbFormat srcW)]
    ∧ 0 < (srcW * 1024) / 320 := by
  have hs := specStride_le s.rgbFormat srcW hW
  have hz : specStride s.rgbFormat 0 = 0 := by
    cases s.rgbFormat <;> rfl
  have hW0 : srcW ≠ 0 := by omega
  refine ⟨?_, ?_, by omega⟩
  · have h := rgbSetScale_eq hw s 0 srcH (by norm_num) hH
    simp only [Nat.cast_zero] at h
    apply newWrites_append
    rw [h]
    simp [REG16_set_writes, specHScale, specVScale, hz]
  · have h := rgbSetScale_eq hw s srcW 0 hW (by norm_num)
    simp only [Nat.cast_zero] at h
    have e1 : srcW * 1024 / 320 % 65536 = srcW * 1024 / 320 := by omega
    have e2 : specStride s.rgbFormat srcW % 65536 = specStride s.rgbFormat srcW := by omega
    apply newWrites_append
    rw [h]
    simp [REG16_set_writes, specHScale, specVScale, hW0, e1, e2]

/-- Witness of C20: height 480 with width 0, and width 640 with height 0,
under RGB888. -/
theorem rgbSetScale_zero_axis_witness :
    newWrites (constMachine 0 RgbFormat.RGB888)
        (rgbSetScale sampleRegs 0 ((480 : Nat) : Int) (constMachine 0 RgbFormat.RGB888))
      = [(sampleRegs.MLC_STL_HSC, 0), (sampleRegs.MLC_STL_VSCL, 0),
          (sampleRegs.MLC_STL_VSCH, 0), (sampleRegs.MLC_STL_HW, 0)]
    ∧ newWrites (constMachine 0 RgbFormat.RGB888)
        (rgbSetScale sampleRegs ((640 : Nat) : Int) 0 (constMachine 0 RgbFormat.RGB888))
      = [(sampleRegs.MLC_STL_HSC, (640 * 1024) / 320), (sampleRegs.MLC_STL_VSCL, 0),
          (sampleRegs.MLC_STL_VSCH, 0),
          (sampleRegs.MLC_STL_HW, specStride (constMachine 0 RgbFormat.RGB888).rgbFormat 640)]
    ∧ 0 < (640 * 1024) / 320 :=
  rgbSetScale_zero_axis sampleRegs (constMachine 0 RgbFormat.RGB888) 640 480
    (by decide) (by decide) (by decide)

end Orcus
